import Mathlib

/-!
# Verification of the PumpSwap sniper-bot opportunity pipeline

Shallow embedding of the repository's core components:

* `src/mev_detector.rs` — the signal detector (`MEVDetector`): profit
  calculators, priority scoring, per-event analysis, batch analysis with
  descending (priority, profit) sort, and the rolling per-instrument price
  history capped at 1000 points.
* `src/sniper.rs` — the execution dispatcher (`SniperBot`): the snipe
  decision, the semaphore-gated dispatch paths, and the transactions built
  for each strategy.
* `src/jito_client.rs` / `src/nozomi_client.rs` — the two confirmation
  backends: polling confirmation-wait loops, tracker cleanup, status query.

Modelling conventions:

* Rust `f64` values are modelled as exact rationals `ℚ` (the spec's claims
  treat the scores as real numbers); `u64` values as `ℕ`, with the
  `as u64` cast modelled by the saturating truncation `f64ToU64` and
  `u64` wrapping subtraction by `sub64`.
* The bounded random draws `rand::random::<f64>()` (values in `[0,1)`) are
  passed in as explicit rational parameters.
* `SystemTime::now().duration_since(UNIX_EPOCH)` is passed in as a `now : ℕ`
  parameter; its fallibility (the `?` operator on it) is modelled in the
  `Except`-monad variants of the detector used for the error-propagation
  claims, where each event's clock read is an `Except Unit ℕ` oracle.
* `HashMap`s are modelled as association lists (tracker maps) or as
  functions out of the key type (the price-history map).
* `tokio::sync::Semaphore` interactions of the dispatch paths are modelled
  by traces of `Action`s (acquire / release / submit), on which slot-holding
  invariants are expressed.
-/

namespace PumpSwap

/-- MEV strategy tags, from `config.rs` (`enum MEVStrategy`). -/
inductive MEVStrategy where
  | Arbitrage
  | FrontRun
  | BackRun
  | Sandwich
  | Liquidation
deriving DecidableEq, Repr

/-- Signal priority, from `mev_detector.rs` (`enum MEVPriority`), with the
derived Rust `Ord` given by the discriminants Low=1 < Medium=2 < High=3 <
Critical=4. -/
inductive MEVPriority where
  | Low
  | Medium
  | High
  | Critical
deriving DecidableEq, Repr

/-- The discriminant of `MEVPriority` (`Low = 1, ..., Critical = 4`); Rust's
derived `Ord` on the enum compares these. -/
def MEVPriority.toNat : MEVPriority → ℕ
  | .Low => 1
  | .Medium => 2
  | .High => 3
  | .Critical => 4

/-- A newly listed instrument, from the `TokenListing` protobuf message as
used by `sniper.rs` and `mev_detector.rs` (`initial_liquidity` is a `u64`
in lamports; metadata fields not read by the modelled code are omitted). -/
structure TokenListing where
  token_address : String
  token_symbol : String
  timestamp : ℕ
  initial_liquidity : ℕ
  pool_address : String
deriving DecidableEq, Repr

/-- A price tick, from the `PriceUpdate` protobuf message as used by
`mev_detector.rs` (prices/liquidity/volume are `f64`, modelled as `ℚ`). -/
structure PriceUpdate where
  token_address : String
  price_usd : ℚ
  price_sol : ℚ
  liquidity_usd : ℚ
  volume_1h : ℚ
  timestamp : ℕ
deriving DecidableEq, Repr

/-- One point of a per-instrument price history (`struct PricePoint`,
`mev_detector.rs`). -/
structure PricePoint where
  price : ℚ
  timestamp : ℕ
  volume : ℕ
deriving DecidableEq, Repr

/-- The placeholder transaction built by
`SniperBot::create_buy_transaction` (`sniper.rs`), recorded by the inputs
that determine it (token, pool, amount in lamports, slippage bound). -/
structure Transaction where
  token_address : String
  pool_address : String
  amount : ℕ
  max_slippage : ℚ
deriving DecidableEq, Repr

/-- Risk-mitigation directives of an execution plan
(`enum RiskMitigation`, `mev_detector.rs`). -/
inductive RiskMitigation where
  | StopLoss (percentage : ℚ)
  | TakeProfit (percentage : ℚ)
  | MaxGasPrice (amount : ℕ)
  | Timeout (duration_ms : ℕ)
  | SlippageProtection (max_slippage : ℚ)
deriving DecidableEq, Repr

/-- `struct ExecutionPlan` (`mev_detector.rs`). -/
structure ExecutionPlan where
  transactions : List Transaction
  estimated_gas : ℕ
  max_slippage : ℚ
  target_profit : ℚ
  risk_mitigation : List RiskMitigation
deriving DecidableEq, Repr

/-- `struct MEVOpportunity` (`mev_detector.rs`). -/
structure MEVOpportunity where
  id : String
  strategy : MEVStrategy
  token_address : String
  pool_address : String
  expected_profit : ℚ
  confidence_score : ℚ
  gas_estimate : ℕ
  deadline : ℕ
  required_transactions : List Transaction
  risk_score : ℚ
  created_at : ℕ
deriving DecidableEq, Repr

/-- `struct MEVSignal` (`mev_detector.rs`). -/
structure MEVSignal where
  opportunity : MEVOpportunity
  priority : MEVPriority
  execution_plan : ExecutionPlan
deriving DecidableEq, Repr

/-- The configuration fields read by the modelled code (`config.rs`);
`mev_strategies` is the parsed strategy list produced by
`Config::get_mev_strategies`. -/
structure Config where
  target_tokens : List String
  min_liquidity : ℚ
  max_slippage : ℚ
  snipe_amount : ℚ
  max_gas_price : ℕ
  enable_mev : Bool
  mev_strategies : List MEVStrategy
  confirmation_service : String
deriving DecidableEq, Repr

/-- Rust's saturating, truncating `f64`-to-`u64` cast (`expr as u64`):
negative values clamp to 0, values beyond `u64::MAX` clamp to the maximum,
fractional values truncate toward zero. -/
def f64ToU64 (q : ℚ) : ℕ :=
  if q ≤ 0 then 0 else min (Int.toNat ⌊q⌋) (2 ^ 64 - 1)

/-- The configured minimum liquidity converted to lamports,
`(config.min_liquidity * 1e9) as u64` (`mev_detector.rs:128`,
`sniper.rs:326`). -/
def minLiquidityLamports (cfg : Config) : ℕ :=
  f64ToU64 (cfg.min_liquidity * 1000000000)

/-- `MEVDetector::calculate_frontrun_profit` (`mev_detector.rs:305-312`):
`0.5 * liquidity_factor * (r * 0.5 + 0.5)` where the random draw `r` is in
`[0,1)`. -/
def calculate_frontrun_profit (listing : TokenListing) (r : ℚ) : ℚ :=
  let base_profit : ℚ := 0.5
  let liquidity_factor := min ((listing.initial_liquidity : ℚ) / 1000000000) 100 / 100
  let random_factor := r * 0.5 + 0.5
  base_profit * liquidity_factor * random_factor

/-- `MEVDetector::calculate_arbitrage_profit` (`mev_detector.rs:314-321`). -/
def calculate_arbitrage_profit (listing : TokenListing) (r : ℚ) : ℚ :=
  let base_profit : ℚ := 0.3
  let liquidity_factor := min ((listing.initial_liquidity : ℚ) / 1000000000) 50 / 50
  let random_factor := r * 0.3 + 0.7
  base_profit * liquidity_factor * random_factor

/-- `MEVDetector::calculate_sandwich_profit` (`mev_detector.rs:323-330`):
`0.4 * min(volume/10000, 1) * |price - price*0.95| / price` (no random
draw; division by zero, impossible through the volume gate for positive
prices, is the `ℚ` convention `x / 0 = 0`). -/
def calculate_sandwich_profit (pu : PriceUpdate) : ℚ :=
  let volume_factor := min (pu.volume_1h / 10000) 1
  let price_impact := |pu.price_usd - pu.price_usd * 0.95| / pu.price_usd
  let base_profit : ℚ := 0.4
  base_profit * volume_factor * price_impact

/-- `MEVDetector::calculate_backrun_profit` (`mev_detector.rs:332-339`). -/
def calculate_backrun_profit (pu : PriceUpdate) (r : ℚ) : ℚ :=
  let volume_factor := min (pu.volume_1h / 5000) 1
  let base_profit : ℚ := 0.25
  let random_factor := r * 0.4 + 0.6
  base_profit * volume_factor * random_factor

/-- `MEVDetector::calculate_priority` (`mev_detector.rs:405-418`): the
combined score `profit * confidence * (1 - risk)` against the fixed
thresholds 0.8 / 0.6 / 0.4. -/
def calculate_priority (o : MEVOpportunity) : MEVPriority :=
  let combined_score := o.expected_profit * o.confidence_score * (1 - o.risk_score)
  if combined_score > 0.8 then .Critical
  else if combined_score > 0.6 then .High
  else if combined_score > 0.4 then .Medium
  else .Low

/-- The execution plan built by
`MEVDetector::create_frontrun_execution_plan` (`mev_detector.rs:341-355`). -/
def create_frontrun_execution_plan (cfg : Config) (o : MEVOpportunity) : ExecutionPlan :=
  { transactions := []
    estimated_gas := o.gas_estimate
    max_slippage := cfg.max_slippage
    target_profit := o.expected_profit
    risk_mitigation := [
      .MaxGasPrice cfg.max_gas_price,
      .Timeout 5000,
      .SlippageProtection cfg.max_slippage] }

/-- `MEVDetector::create_arbitrage_execution_plan` (`mev_detector.rs:357-371`). -/
def create_arbitrage_execution_plan (cfg : Config) (o : MEVOpportunity) : ExecutionPlan :=
  { transactions := []
    estimated_gas := o.gas_estimate
    max_slippage := cfg.max_slippage
    target_profit := o.expected_profit
    risk_mitigation := [
      .MaxGasPrice cfg.max_gas_price,
      .Timeout 10000,
      .SlippageProtection (cfg.max_slippage * 0.5)] }

/-- `MEVDetector::create_sandwich_execution_plan` (`mev_detector.rs:373-387`). -/
def create_sandwich_execution_plan (cfg : Config) (o : MEVOpportunity) : ExecutionPlan :=
  { transactions := []
    estimated_gas := o.gas_estimate
    max_slippage := cfg.max_slippage
    target_profit := o.expected_profit
    risk_mitigation := [
      .MaxGasPrice (cfg.max_gas_price * 2),
      .Timeout 3000,
      .SlippageProtection (cfg.max_slippage * 2)] }

/-- `MEVDetector::create_backrun_execution_plan` (`mev_detector.rs:389-403`). -/
def create_backrun_execution_plan (cfg : Config) (o : MEVOpportunity) : ExecutionPlan :=
  { transactions := []
    estimated_gas := o.gas_estimate
    max_slippage := cfg.max_slippage
    target_profit := o.expected_profit
    risk_mitigation := [
      .MaxGasPrice cfg.max_gas_price,
      .Timeout 8000,
      .SlippageProtection cfg.max_slippage] }

/-- `MEVDetector::detect_frontrun_opportunity` (`mev_detector.rs:177-207`):
yields a signal iff the simulated profit exceeds 0.1, with fixed confidence
0.8 and risk 0.3; `now` is the epoch-seconds clock read used for the
deadline and creation timestamp. -/
def detect_frontrun_opportunity (cfg : Config) (now : ℕ) (listing : TokenListing)
    (r : ℚ) : Option MEVSignal :=
  let expected_profit := calculate_frontrun_profit listing r
  if expected_profit > 0.1 then
    let opportunity : MEVOpportunity :=
      { id := "frontrun_" ++ listing.token_address
        strategy := .FrontRun
        token_address := listing.token_address
        pool_address := listing.pool_address
        expected_profit := expected_profit
        confidence_score := 0.8
        gas_estimate := 50000
        deadline := now + 30
        required_transactions := []
        risk_score := 0.3
        created_at := now }
    some { opportunity := opportunity
           priority := calculate_priority opportunity
           execution_plan := create_frontrun_execution_plan cfg opportunity }
  else none

/-- `MEVDetector::detect_arbitrage_opportunity` (`mev_detector.rs:209-239`):
profit floor 0.05, confidence 0.9, risk 0.2. -/
def detect_arbitrage_opportunity (cfg : Config) (now : ℕ) (listing : TokenListing)
    (r : ℚ) : Option MEVSignal :=
  let expected_profit := calculate_arbitrage_profit listing r
  if expected_profit > 0.05 then
    let opportunity : MEVOpportunity :=
      { id := "arbitrage_" ++ listing.token_address
        strategy := .Arbitrage
        token_address := listing.token_address
        pool_address := listing.pool_address
        expected_profit := expected_profit
        confidence_score := 0.9
        gas_estimate := 100000
        deadline := now + 60
        required_transactions := []
        risk_score := 0.2
        created_at := now }
    some { opportunity := opportunity
           priority := calculate_priority opportunity
           execution_plan := create_arbitrage_execution_plan cfg opportunity }
  else none

/-- `MEVDetector::detect_sandwich_opportunity` (`mev_detector.rs:241-271`):
profit floor 0.2, confidence 0.7, risk 0.6. -/
def detect_sandwich_opportunity (cfg : Config) (now : ℕ) (pu : PriceUpdate) :
    Option MEVSignal :=
  let expected_profit := calculate_sandwich_profit pu
  if expected_profit > 0.2 then
    let opportunity : MEVOpportunity :=
      { id := "sandwich_" ++ pu.token_address
        strategy := .Sandwich
        token_address := pu.token_address
        pool_address := ""
        expected_profit := expected_profit
        confidence_score := 0.7
        gas_estimate := 150000
        deadline := now + 10
        required_transactions := []
        risk_score := 0.6
        created_at := now }
    some { opportunity := opportunity
           priority := calculate_priority opportunity
           execution_plan := create_sandwich_execution_plan cfg opportunity }
  else none

/-- `MEVDetector::detect_backrun_opportunity` (`mev_detector.rs:273-303`):
profit floor 0.15, confidence 0.85, risk 0.4. -/
def detect_backrun_opportunity (cfg : Config) (now : ℕ) (pu : PriceUpdate)
    (r : ℚ) : Option MEVSignal :=
  let expected_profit := calculate_backrun_profit pu r
  if expected_profit > 0.15 then
    let opportunity : MEVOpportunity :=
      { id := "backrun_" ++ pu.token_address
        strategy := .BackRun
        token_address := pu.token_address
        pool_address := ""
        expected_profit := expected_profit
        confidence_score := 0.85
        gas_estimate := 80000
        deadline := now + 20
        required_transactions := []
        risk_score := 0.4
        created_at := now }
    some { opportunity := opportunity
           priority := calculate_priority opportunity
           execution_plan := create_backrun_execution_plan cfg opportunity }
  else none

/-- `MEVDetector::analyze_new_listing` (`mev_detector.rs:124-147`): reject
below the minimum liquidity, then try front-running (if enabled), then
arbitrage (if enabled), returning the first hit. `rF`, `rA` are the random
draws of the respective profit calculators. -/
def analyze_new_listing (cfg : Config) (now : ℕ) (listing : TokenListing)
    (rF rA : ℚ) : Option MEVSignal :=
  if listing.initial_liquidity < minLiquidityLamports cfg then none
  else
    match (if MEVStrategy.FrontRun ∈ cfg.mev_strategies then
             detect_frontrun_opportunity cfg now listing rF
           else none) with
    | some signal => some signal
    | none =>
        if MEVStrategy.Arbitrage ∈ cfg.mev_strategies then
          detect_arbitrage_opportunity cfg now listing rA
        else none

/-- `MEVDetector::analyze_price_update` (`mev_detector.rs:149-175`): reject
below the fixed 1000-currency-unit hourly-volume floor, then try sandwich
(if enabled), then back-running (if enabled). -/
def analyze_price_update (cfg : Config) (now : ℕ) (pu : PriceUpdate)
    (rB : ℚ) : Option MEVSignal :=
  if pu.volume_1h < 1000 then none
  else
    match (if MEVStrategy.Sandwich ∈ cfg.mev_strategies then
             detect_sandwich_opportunity cfg now pu
           else none) with
    | some signal => some signal
    | none =>
        if MEVStrategy.BackRun ∈ cfg.mev_strategies then
          detect_backrun_opportunity cfg now pu rB
        else none

/-- The comparator of `MEVDetector::analyze_opportunities`
(`mev_detector.rs:116-119`) as the "comes no later than" relation of the
sort: `a` may precede `b` iff `a` has strictly higher priority, or equal
priority and at least the profit, of `b` (descending (priority, profit)). -/
def signalLe (a b : MEVSignal) : Prop :=
  b.priority.toNat < a.priority.toNat ∨
    (a.priority = b.priority ∧
      b.opportunity.expected_profit ≤ a.opportunity.expected_profit)

instance : DecidableRel signalLe := fun a b => by
  unfold signalLe; infer_instance

instance : IsTotal MEVSignal signalLe := by
  constructor
  intro a b
  unfold signalLe
  rcases h : a.priority <;> rcases h' : b.priority <;>
    simp [MEVPriority.toNat] <;> exact le_total _ _

instance : IsTrans MEVSignal signalLe := by
  constructor
  intro a b c hab hbc
  unfold signalLe at *
  rcases hab with h1 | ⟨h1, h1p⟩ <;> rcases hbc with h2 | ⟨h2, h2p⟩
  · exact Or.inl (h2.trans h1)
  · exact Or.inl (h2 ▸ h1)
  · exact Or.inl (h1 ▸ h2)
  · exact Or.inr ⟨h1.trans h2, h2p.trans h1p⟩

/-- The signal sort of `MEVDetector::analyze_opportunities`
(`mev_detector.rs:116-119`): `Vec::sort_by` is a stable sort and a stable
sort's output for a total preorder comparator is unique, so it is modelled
by insertion sort under `signalLe`. -/
def sortSignals (signals : List MEVSignal) : List MEVSignal :=
  signals.insertionSort signalLe

/-- The price point pushed by `MEVDetector::update_price_history`
(`mev_detector.rs:422-426`) for one update (`volume_1h as u64`). -/
def toPricePoint (u : PriceUpdate) : PricePoint :=
  { price := u.price_usd, timestamp := u.timestamp, volume := f64ToU64 u.volume_1h }

/-- The per-token trim of `MEVDetector::update_price_history`
(`mev_detector.rs:434-439`): `history.drain(0..len-1000)` when the length
exceeds 1000, keeping the most recent 1000 points. -/
def trimHistory (h : List PricePoint) : List PricePoint :=
  if h.length > 1000 then h.drop (h.length - 1000) else h

/-- Appending one update to the history map (`entry(...).or_insert.push`,
`mev_detector.rs:428-431`); the `HashMap` is modelled as a function from
token address to history. -/
def pushUpdate (m : String → List PricePoint) (u : PriceUpdate) :
    String → List PricePoint :=
  fun a => if a = u.token_address then m a ++ [toPricePoint u] else m a

/-- `MEVDetector::update_price_history` (`mev_detector.rs:420-440`): push
every update onto its token's history, then trim every token's history to
its last 1000 points. -/
def update_price_history (m : String → List PricePoint)
    (updates : List PriceUpdate) : String → List PricePoint :=
  fun a => trimHistory ((updates.foldl pushUpdate m) a)

/-- `MEVDetector::analyze_opportunities` (`mev_detector.rs:92-122`) with a
total clock: update the history, collect the per-listing and
per-price-update signals in order, and sort them descending by
(priority, expected profit). The random draws are supplied per event by
`rF`/`rA` (listings) and `rB` (price updates). Returns the new history and
the sorted signals. -/
def analyze_opportunities (cfg : Config) (now : ℕ)
    (hist : String → List PricePoint)
    (listings : List TokenListing) (updates : List PriceUpdate)
    (rF rA : TokenListing → ℚ) (rB : PriceUpdate → ℚ) :
    (String → List PricePoint) × List MEVSignal :=
  let hist' := update_price_history hist updates
  let listingSignals :=
    listings.filterMap (fun l => analyze_new_listing cfg now l (rF l) (rA l))
  let updateSignals :=
    updates.filterMap (fun u => analyze_price_update cfg now u (rB u))
  (hist', sortSignals (listingSignals ++ updateSignals))

/-! ## Fallible-clock variants of the detector

In the source every per-event analysis can fail: the detectors read
`SystemTime::now().duration_since(UNIX_EPOCH)?` when they build an
opportunity, and `MEVDetector::analyze_opportunities` applies `?` to each
per-event result inside its loops (`mev_detector.rs:100,107`). These
variants model that: each event's clock read is an `Except Unit ℕ` oracle,
consulted exactly when a detector's profit gate passes. -/

/-- `detect_frontrun_opportunity` with the fallible clock read
(`mev_detector.rs:190,193`): the clock is consulted only when the profit
gate passes, to stamp the opportunity. -/
def detect_frontrun_opportunityE (cfg : Config) (clock : Except Unit ℕ)
    (listing : TokenListing) (r : ℚ) : Except Unit (Option MEVSignal) :=
  if calculate_frontrun_profit listing r > 0.1 then do
    let now ← clock
    pure (detect_frontrun_opportunity cfg now listing r)
  else pure none

/-- `detect_arbitrage_opportunity` with the fallible clock read. -/
def detect_arbitrage_opportunityE (cfg : Config) (clock : Except Unit ℕ)
    (listing : TokenListing) (r : ℚ) : Except Unit (Option MEVSignal) :=
  if calculate_arbitrage_profit listing r > 0.05 then do
    let now ← clock
    pure (detect_arbitrage_opportunity cfg now listing r)
  else pure none

/-- `detect_sandwich_opportunity` with the fallible clock read. -/
def detect_sandwich_opportunityE (cfg : Config) (clock : Except Unit ℕ)
    (pu : PriceUpdate) : Except Unit (Option MEVSignal) :=
  if calculate_sandwich_profit pu > 0.2 then do
    let now ← clock
    pure (detect_sandwich_opportunity cfg now pu)
  else pure none

/-- `detect_backrun_opportunity` with the fallible clock read. -/
def detect_backrun_opportunityE (cfg : Config) (clock : Except Unit ℕ)
    (pu : PriceUpdate) (r : ℚ) : Except Unit (Option MEVSignal) :=
  if calculate_backrun_profit pu r > 0.15 then do
    let now ← clock
    pure (detect_backrun_opportunity cfg now pu r)
  else pure none

/-- `MEVDetector::analyze_new_listing` with the fallible clock: the `?` on
each detector call propagates its error (`mev_detector.rs:134,141`). -/
def analyze_new_listingE (cfg : Config) (clock : Except Unit ℕ)
    (listing : TokenListing) (rF rA : ℚ) : Except Unit (Option MEVSignal) :=
  if listing.initial_liquidity < minLiquidityLamports cfg then pure none
  else do
    let first ← (if MEVStrategy.FrontRun ∈ cfg.mev_strategies then
                   detect_frontrun_opportunityE cfg clock listing rF
                 else pure none)
    match first with
    | some signal => pure (some signal)
    | none =>
        if MEVStrategy.Arbitrage ∈ cfg.mev_strategies then
          detect_arbitrage_opportunityE cfg clock listing rA
        else pure none

/-- `MEVDetector::analyze_price_update` with the fallible clock. -/
def analyze_price_updateE (cfg : Config) (clock : Except Unit ℕ)
    (pu : PriceUpdate) (rB : ℚ) : Except Unit (Option MEVSignal) :=
  if pu.volume_1h < 1000 then pure none
  else do
    let first ← (if MEVStrategy.Sandwich ∈ cfg.mev_strategies then
                   detect_sandwich_opportunityE cfg clock pu
                 else pure none)
    match first with
    | some signal => pure (some signal)
    | none =>
        if MEVStrategy.BackRun ∈ cfg.mev_strategies then
          detect_backrun_opportunityE cfg clock pu rB
        else pure none

/-- The signal-collecting loops of `MEVDetector::analyze_opportunities`
(`mev_detector.rs:99-110`): each event's result is unwrapped with `?`, so
the first per-event error aborts the whole batch. -/
def collectSignalsE {α : Type} (perEvent : α → Except Unit (Option MEVSignal)) :
    List α → Except Unit (List MEVSignal)
  | [] => pure []
  | e :: es => do
      let s? ← perEvent e
      let rest ← collectSignalsE perEvent es
      match s? with
      | some s => pure (s :: rest)
      | none => pure rest

/-- `MEVDetector::analyze_opportunities` (`mev_detector.rs:92-122`) with
per-event fallible clocks `clkL`/`clkU`: update the history, collect the
listing signals then the price-update signals (each unwrapped with `?`),
and sort. -/
def analyze_opportunitiesE (cfg : Config)
    (clkL : TokenListing → Except Unit ℕ) (clkU : PriceUpdate → Except Unit ℕ)
    (hist : String → List PricePoint)
    (listings : List TokenListing) (updates : List PriceUpdate)
    (rF rA : TokenListing → ℚ) (rB : PriceUpdate → ℚ) :
    Except Unit ((String → List PricePoint) × List MEVSignal) := do
  let hist' := update_price_history hist updates
  let listingSignals ←
    collectSignalsE (fun l => analyze_new_listingE cfg (clkL l) l (rF l) (rA l)) listings
  let updateSignals ←
    collectSignalsE (fun u => analyze_price_updateE cfg (clkU u) u (rB u)) updates
  pure (hist', sortSignals (listingSignals ++ updateSignals))

/-! ## The execution dispatcher (`sniper.rs`)

The dispatch paths are modelled by the traces of semaphore and submission
actions they perform, in program order. -/

/-- One observable action of a dispatch path: acquiring / releasing a permit
of the `trade_semaphore`, or handing transactions to the configured
confirmation backend. -/
inductive Action where
  | acquire
  | release
  | submitTx (tx : Transaction)
  | submitBatch (txs : List Transaction)
deriving DecidableEq, Repr

/-- `SniperBot::should_snipe_token` (`sniper.rs:322-342`): liquidity at
least the configured minimum, and membership in the target list when that
list is non-empty. -/
def should_snipe_token (cfg : Config) (listing : TokenListing) : Bool :=
  if listing.initial_liquidity < minLiquidityLamports cfg then false
  else if cfg.target_tokens ≠ [] ∧ listing.token_address ∉ cfg.target_tokens then false
  else true

/-- `SniperBot::create_buy_transaction` (`sniper.rs:430-455`), recorded by
the inputs that determine the placeholder transaction. -/
def create_buy_transaction (token_address pool_address : String) (amount : ℕ)
    (max_slippage : ℚ) : Transaction :=
  { token_address := token_address
    pool_address := pool_address
    amount := amount
    max_slippage := max_slippage }

/-- `SniperBot::create_mev_transactions` (`sniper.rs:457-520`): one buy
transaction whose lamport amount is fixed per strategy. -/
def create_mev_transactions (signal : MEVSignal) : List Transaction :=
  let amount : ℕ :=
    match signal.opportunity.strategy with
    | .Arbitrage => 1000000
    | .FrontRun => 2000000
    | .Sandwich => 1500000
    | .BackRun => 800000
    | .Liquidation => 5000000
  [create_buy_transaction signal.opportunity.token_address
    signal.opportunity.pool_address amount signal.execution_plan.max_slippage]

/-- The submissions of `SniperBot::execute_snipe` (`sniper.rs:344-389`):
build the buy transaction for `(snipe_amount * 1e9) as u64` lamports and
submit it through the backend selected by `confirmation_service`;
a missing manager or unknown service is an error producing no submission
(the error is caught and logged by the caller). `hasJito`/`hasNozomi`
record which managers were constructed. -/
def execute_snipe_actions (cfg : Config) (hasJito hasNozomi : Bool)
    (listing : TokenListing) : List Action :=
  let tx := create_buy_transaction listing.token_address listing.pool_address
    (f64ToU64 (cfg.snipe_amount * 1000000000)) cfg.max_slippage
  if cfg.confirmation_service = "jito" then
    (if hasJito then [.submitTx tx] else [])
  else if cfg.confirmation_service = "nozomi" then
    (if hasNozomi then [.submitTx tx] else [])
  else []

/-- The submissions of `SniperBot::execute_mev_strategy`
(`sniper.rs:391-428`): build the strategy's transactions and submit them as
a batch through the selected backend. -/
def execute_mev_strategy_actions (cfg : Config) (hasJito hasNozomi : Bool)
    (signal : MEVSignal) : List Action :=
  let txs := create_mev_transactions signal
  if cfg.confirmation_service = "jito" then
    (if hasJito then [.submitBatch txs] else [])
  else if cfg.confirmation_service = "nozomi" then
    (if hasNozomi then [.submitBatch txs] else [])
  else []

/-- The MEV loop of `SniperBot::process_new_listing` (`sniper.rs:262-277`):
every signal of priority at least High is executed — with no semaphore
interaction on this path. -/
def dispatchListingMEV (cfg : Config) (hasJito hasNozomi : Bool)
    (signals : List MEVSignal) : List Action :=
  signals.flatMap (fun signal =>
    if MEVPriority.High.toNat ≤ signal.priority.toNat then
      execute_mev_strategy_actions cfg hasJito hasNozomi signal
    else [])

/-- The MEV loop of `SniperBot::process_price_update` (`sniper.rs:298-315`):
every signal of priority at least Medium is executed while holding one
semaphore permit, acquired before the execution and dropped at the end of
the loop iteration (on success and on failure alike). -/
def dispatchPriceMEV (cfg : Config) (hasJito hasNozomi : Bool)
    (signals : List MEVSignal) : List Action :=
  signals.flatMap (fun signal =>
    if MEVPriority.Medium.toNat ≤ signal.priority.toNat then
      Action.acquire ::
        (execute_mev_strategy_actions cfg hasJito hasNozomi signal ++ [Action.release])
    else [])

/-- `SniperBot::process_new_listing` (`sniper.rs:226-281`) as its action
trace: if the snipe decision passes, acquire one permit, execute the snipe
and drop the permit at the end of the block (released on success and
failure alike, since `execute_snipe` errors are caught); then, if MEV is
enabled, run the detector on the single listing and execute every signal of
priority at least High — without the semaphore. -/
def process_new_listing (cfg : Config) (hasJito hasNozomi : Bool) (now : ℕ)
    (hist : String → List PricePoint) (listing : TokenListing)
    (rF rA : ℚ) : List Action :=
  (if should_snipe_token cfg listing then
    Action.acquire :: (execute_snipe_actions cfg hasJito hasNozomi listing ++ [Action.release])
   else []) ++
  (if cfg.enable_mev then
    dispatchListingMEV cfg hasJito hasNozomi
      (analyze_opportunities cfg now hist [listing] []
        (fun _ => rF) (fun _ => rA) (fun _ => 0)).2
   else [])

/-- `SniperBot::process_price_update` (`sniper.rs:283-320`) as its action
trace: if MEV is enabled, run the detector on the single price update and
execute every signal of priority at least Medium, each while holding one
permit. -/
def process_price_update (cfg : Config) (hasJito hasNozomi : Bool) (now : ℕ)
    (hist : String → List PricePoint) (pu : PriceUpdate) (rB : ℚ) : List Action :=
  if cfg.enable_mev then
    dispatchPriceMEV cfg hasJito hasNozomi
      (analyze_opportunities cfg now hist [] [pu]
        (fun _ => 0) (fun _ => 0) (fun _ => rB)).2
  else []

/-- The semaphore balance after a trace: permits acquired and not yet
released (releases below zero are clamped, but `guardedFrom` rules them
out). -/
def balAfter : ℕ → List Action → ℕ
  | bal, [] => bal
  | bal, .acquire :: rest => balAfter (bal + 1) rest
  | bal, .release :: rest => balAfter (bal - 1) rest
  | bal, .submitTx _ :: rest => balAfter bal rest
  | bal, .submitBatch _ :: rest => balAfter bal rest

/-- The slot-holding invariant over a trace, starting from `bal` held
permits: every submission happens while exactly one permit is held, and
every release releases a held permit. -/
def guardedFrom : ℕ → List Action → Bool
  | _, [] => true
  | bal, .acquire :: rest => guardedFrom (bal + 1) rest
  | bal, .release :: rest => decide (0 < bal) && guardedFrom (bal - 1) rest
  | bal, .submitTx _ :: rest => decide (bal = 1) && guardedFrom bal rest
  | bal, .submitBatch _ :: rest => decide (bal = 1) && guardedFrom bal rest

/-- Number of permits acquired in a trace. -/
def acquireCount (tr : List Action) : ℕ :=
  tr.countP (fun a => match a with | .acquire => true | _ => false)

/-- Number of permits released in a trace. -/
def releaseCount (tr : List Action) : ℕ :=
  tr.countP (fun a => match a with | .release => true | _ => false)

/-- Number of backend submissions in a trace. -/
def submitCount (tr : List Action) : ℕ :=
  tr.countP (fun a =>
    match a with | .submitTx _ => true | .submitBatch _ => true | _ => false)

/-! ## The confirmation backends (`jito_client.rs`, `nozomi_client.rs`) -/

/-- Bundle status, from `jito_client.rs` (`enum BundleStatus`). -/
inductive BundleStatus where
  | Pending
  | Confirmed
  | Failed
deriving DecidableEq, Repr

/-- The number of poll iterations of a 100ms-interval wait loop within
`timeout_ms` milliseconds: iteration `i` runs at elapsed time `i * 100` ms,
so the loop body runs for every `i` with `i * 100 < timeout_ms`, i.e.
⌈timeout_ms / 100⌉ times. -/
def numPolls (timeout_ms : ℕ) : ℕ :=
  (timeout_ms + 99) / 100

/-- The polling loop of `JitoClient::wait_for_bundle_confirmation`
(`jito_client.rs:119-144`), with `fuel` iterations remaining and `i` the
index of the next poll: Confirmed returns true, Failed returns false, and a
Pending status or a transient status-check error (`Except.error`) sleeps
100ms and loops. -/
def jitoWaitLoop (poll : ℕ → Except Unit BundleStatus) :
    ℕ → ℕ → Bool
  | 0, _ => false
  | fuel + 1, i =>
    match poll i with
    | .ok .Confirmed => true
    | .ok .Failed => false
    | .ok .Pending => jitoWaitLoop poll fuel (i + 1)
    | .error _ => jitoWaitLoop poll fuel (i + 1)

/-- `JitoClient::wait_for_bundle_confirmation` (`jito_client.rs:114-148`):
poll every 100ms until a terminal status or the timeout; on timeout return
false rather than raising. -/
def wait_for_bundle_confirmation (poll : ℕ → Except Unit BundleStatus)
    (timeout_ms : ℕ) : Bool :=
  jitoWaitLoop poll (numPolls timeout_ms) 0

/-- The polling loop of `NozomiClient::wait_for_confirmation`
(`nozomi_client.rs:136-165`): the remote status is a string; "confirmed"
returns true, "failed" returns false, and "pending", any unknown status, or
a transient status-check error loops. -/
def nozomiWaitLoop (poll : ℕ → Except Unit String) :
    ℕ → ℕ → Bool
  | 0, _ => false
  | fuel + 1, i =>
    match poll i with
    | .ok s =>
        if s = "confirmed" then true
        else if s = "failed" then false
        else nozomiWaitLoop poll fuel (i + 1)
    | .error _ => nozomiWaitLoop poll fuel (i + 1)

/-- `NozomiClient::wait_for_confirmation` (`nozomi_client.rs:131-169`). -/
def wait_for_confirmation (poll : ℕ → Except Unit String)
    (timeout_ms : ℕ) : Bool :=
  nozomiWaitLoop poll (numPolls timeout_ms) 0

/-- `struct BundleTransaction` (`jito_client.rs`). -/
structure BundleTransaction where
  transaction : Transaction
  priority_fee : ℕ
  tip_amount : ℕ
deriving DecidableEq, Repr

/-- `struct Bundle` (`jito_client.rs`). -/
structure Bundle where
  transactions : List BundleTransaction
  bundle_id : String
  created_at : ℕ
deriving DecidableEq, Repr

/-- `struct NozomiTransaction` (`nozomi_client.rs`). -/
structure NozomiTransaction where
  transaction_data : String
  priority_fee : ℕ
  max_retries : ℕ
  timeout_ms : ℕ
deriving DecidableEq, Repr

/-- `struct NozomiSubmission` (`nozomi_client.rs`). -/
structure NozomiSubmission where
  transactions : List NozomiTransaction
  submission_id : String
  created_at : ℕ
deriving DecidableEq, Repr

/-- Rust `u64` wrapping subtraction `a - b` for `a, b < 2^64` (release-mode
semantics of the `now - created_at` age computations). -/
def sub64 (a b : ℕ) : ℕ :=
  (a + 2 ^ 64 - b % 2 ^ 64) % 2 ^ 64

/-- `BundleManager::cleanup_completed_bundles` (`jito_client.rs:276-286`):
retain a pending bundle iff `now - created_at < 300`; the `HashMap` is
modelled as an association list. -/
def cleanup_completed_bundles (now : ℕ) (pending : List (String × Bundle)) :
    List (String × Bundle) :=
  pending.filter (fun kb => decide (sub64 now kb.2.created_at < 300))

/-- `NozomiManager::cleanup_completed_submissions`
(`nozomi_client.rs:314-324`): retain a pending submission iff
`created_at > now - 600`. -/
def cleanup_completed_submissions (now : ℕ)
    (pending : List (String × NozomiSubmission)) :
    List (String × NozomiSubmission) :=
  pending.filter (fun ks => decide (ks.2.created_at > sub64 now 600))

/-- `BundleManager::get_bundle_status` (`jito_client.rs:266-274`):
`Some(Pending)` when the id is a key of the pending map, `Some(Confirmed)`
otherwise. -/
def get_bundle_status (pending : List (String × Bundle)) (bundle_id : String) :
    Option BundleStatus :=
  if (pending.map Prod.fst).contains bundle_id then some .Pending
  else some .Confirmed

deriving instance DecidableEq for Except

/-! ## Claim C5: priority thresholds -/

/-- **C5.** Priority is a pure function of the opportunity's
(expected_profit, confidence_score, risk_score): with
`combined = profit * confidence * (1 - risk)`, the result is Critical when
`combined > 0.8`, High when `combined > 0.6`, Medium when `combined > 0.4`,
and Low otherwise; in particular combined = 0.85 gives Critical, 0.65 gives
High, 0.45 gives Medium, and 0.1 gives Low. -/
theorem calculate_priority_spec :
    (∀ (i ta pa : String) (st : MEVStrategy) (p c r : ℚ) (g d ct : ℕ)
        (rt : List Transaction),
      calculate_priority ⟨i, st, ta, pa, p, c, g, d, rt, r, ct⟩ =
        (if p * c * (1 - r) > 0.8 then MEVPriority.Critical
         else if p * c * (1 - r) > 0.6 then MEVPriority.High
         else if p * c * (1 - r) > 0.4 then MEVPriority.Medium
         else MEVPriority.Low)) ∧
    calculate_priority ⟨"", .FrontRun, "", "", 0.85, 1, 0, 0, [], 0, 0⟩ =
      MEVPriority.Critical ∧
    calculate_priority ⟨"", .FrontRun, "", "", 0.65, 1, 0, 0, [], 0, 0⟩ =
      MEVPriority.High ∧
    calculate_priority ⟨"", .FrontRun, "", "", 0.45, 1, 0, 0, [], 0, 0⟩ =
      MEVPriority.Medium ∧
    calculate_priority ⟨"", .FrontRun, "", "", 0.1, 1, 0, 0, [], 0, 0⟩ =
      MEVPriority.Low := by
  refine ⟨fun i st ta pa p c r g d ct rt => rfl, ?_, ?_, ?_, ?_⟩ <;>
    norm_num [calculate_priority]

/-! ## Claim C10: bundle status query -/

/-- **C10.** `BundleManager::get_bundle_status` returns `Some(Pending)` iff
the id is a key of the pending-bundles map and `Some(Confirmed)` for every
id absent from it — including ids never submitted or whose bundle actually
failed; it never returns `None` and never reports `Failed`. -/
theorem get_bundle_status_spec :
    ∀ (pending : List (String × Bundle)) (bundle_id : String),
      (get_bundle_status pending bundle_id = some .Pending ↔
        (pending.map Prod.fst).contains bundle_id = true) ∧
      (get_bundle_status pending bundle_id = some .Confirmed ↔
        (pending.map Prod.fst).contains bundle_id = false) ∧
      get_bundle_status pending bundle_id ≠ none ∧
      get_bundle_status pending bundle_id ≠ some .Failed := by
  intro pending bundle_id
  unfold get_bundle_status
  split <;> simp_all

/-- Closed instance of `get_bundle_status_spec`: a map holding one bundle
under "a", queried at the present id "a" and the never-submitted id "b". -/
theorem get_bundle_status_spec_witness :
    (get_bundle_status [("a", ⟨[], "a", 0⟩)] "a" = some .Pending ↔
      ([("a", (⟨[], "a", 0⟩ : Bundle))].map Prod.fst).contains "a" = true) ∧
    (get_bundle_status [("a", ⟨[], "a", 0⟩)] "b" = some .Confirmed ↔
      ([("a", (⟨[], "a", 0⟩ : Bundle))].map Prod.fst).contains "b" = false) := by
  exact ⟨(get_bundle_status_spec [("a", ⟨[], "a", 0⟩)] "a").1,
    (get_bundle_status_spec [("a", ⟨[], "a", 0⟩)] "b").2.1⟩

/-! ## Claim C9: tracker cleanup -/

/-- `u64` wrapping subtraction agrees with `ℕ` subtraction when it cannot
underflow. -/
theorem sub64_of_le {a b : ℕ} (hba : b ≤ a) (ha : a < 2 ^ 64) :
    sub64 a b = a - b := by
  unfold sub64
  have hb : b % 2 ^ 64 = b := Nat.mod_eq_of_lt (lt_of_le_of_lt hba ha)
  rw [hb]
  have h1 : a + 2 ^ 64 - b = (a - b) + 2 ^ 64 := by omega
  rw [h1, Nat.add_mod_right]
  exact Nat.mod_eq_of_lt (by omega)

/-- **C9.** Tracker cleanup removes exactly the aged-out records: the
bundle-style tracker (`cleanup_completed_bundles`) retains a record iff its
age `now - created_at` is under 300 seconds, and the relay-style tracker
(`cleanup_completed_submissions`) retains a record iff its `created_at` is
after `now - 600`, in the underflow-free regime of the `u64` age
arithmetic. -/
theorem tracker_cleanup_spec :
    ∀ (now : ℕ) (bundles : List (String × Bundle))
      (subs : List (String × NozomiSubmission))
      (e : String × Bundle) (s : String × NozomiSubmission),
      (e.2.created_at ≤ now → now < 2 ^ 64 →
        (e ∈ cleanup_completed_bundles now bundles ↔
          e ∈ bundles ∧ now - e.2.created_at < 300)) ∧
      (600 ≤ now → now < 2 ^ 64 →
        (s ∈ cleanup_completed_submissions now subs ↔
          s ∈ subs ∧ now - 600 < s.2.created_at)) := by
  intro now bundles subs e s
  constructor
  · intro hle hlt
    unfold cleanup_completed_bundles
    rw [List.mem_filter, sub64_of_le hle hlt]
    simp
  · intro h600 hlt
    unfold cleanup_completed_submissions
    rw [List.mem_filter, sub64_of_le h600 hlt]
    simp

/-- Closed instance of `tracker_cleanup_spec` at `now = 1000`: a bundle
created at 800 (age 200) is retained, and a submission created at 300
(older than `now - 600`) is dropped. -/
theorem tracker_cleanup_spec_witness :
    (("a", (⟨[], "a", 800⟩ : Bundle)) ∈
        cleanup_completed_bundles 1000 [("a", ⟨[], "a", 800⟩)] ↔
      ("a", (⟨[], "a", 800⟩ : Bundle)) ∈ [("a", (⟨[], "a", 800⟩ : Bundle))] ∧
        1000 - 800 < 300) ∧
    (("s", (⟨[], "s", 300⟩ : NozomiSubmission)) ∈
        cleanup_completed_submissions 1000 [("s", ⟨[], "s", 300⟩)] ↔
      ("s", (⟨[], "s", 300⟩ : NozomiSubmission)) ∈
          [("s", (⟨[], "s", 300⟩ : NozomiSubmission))] ∧
        1000 - 600 < 300) := by
  exact ⟨(tracker_cleanup_spec 1000 [("a", ⟨[], "a", 800⟩)] [("s", ⟨[], "s", 300⟩)]
      ("a", ⟨[], "a", 800⟩) ("s", ⟨[], "s", 300⟩)).1 (by norm_num) (by norm_num),
    (tracker_cleanup_spec 1000 [("a", ⟨[], "a", 800⟩)] [("s", ⟨[], "s", 300⟩)]
      ("a", ⟨[], "a", 800⟩) ("s", ⟨[], "s", 300⟩)).2 (by norm_num) (by norm_num)⟩

/-! ## Claim C8: confirmation wait loops -/

/-- If no poll in the loop's window observes a terminal status, the jito
wait loop times out with `false`. -/
theorem jitoWaitLoop_false (poll : ℕ → Except Unit BundleStatus) :
    ∀ fuel i,
      (∀ j, i ≤ j → j < i + fuel →
        poll j ≠ .ok .Confirmed ∧ poll j ≠ .ok .Failed) →
      jitoWaitLoop poll fuel i = false := by
  intro fuel
  induction fuel with
  | zero => intro i _; rfl
  | succ n ih =>
    intro i h
    have hi := h i (le_refl i) (by omega)
    cases hp : poll i with
    | error e =>
        simp only [jitoWaitLoop, hp]
        exact ih (i + 1) (fun j h1 h2 => h j (by omega) (by omega))
    | ok s =>
        cases s with
        | Confirmed => exact absurd hp hi.1
        | Failed => exact absurd hp hi.2
        | Pending =>
            simp only [jitoWaitLoop, hp]
            exact ih (i + 1) (fun j h1 h2 => h j (by omega) (by omega))

/-- If the first terminal status in the loop's window is observed at poll
`k`, the jito wait loop returns `true` on Confirmed and `false` on Failed;
earlier transient errors and Pending statuses are skipped. -/
theorem jitoWaitLoop_terminal (poll : ℕ → Except Unit BundleStatus) :
    ∀ fuel i k, i ≤ k → k < i + fuel →
      (∀ j, i ≤ j → j < k →
        poll j ≠ .ok .Confirmed ∧ poll j ≠ .ok .Failed) →
      (poll k = .ok .Confirmed → jitoWaitLoop poll fuel i = true) ∧
      (poll k = .ok .Failed → jitoWaitLoop poll fuel i = false) := by
  intro fuel
  induction fuel with
  | zero => intro i k h1 h2 _; omega
  | succ n ih =>
    intro i k hik hk h
    by_cases hk0 : k = i
    · subst hk0
      refine ⟨fun hc => ?_, fun hf => ?_⟩
      · simp only [jitoWaitLoop, hc]
      · simp only [jitoWaitLoop, hf]
    · have hi := h i (le_refl i) (by omega)
      have step := ih (i + 1) k (by omega) (by omega)
        (fun j hj1 hj2 => h j (by omega) hj2)
      refine ⟨fun hc => ?_, fun hf => ?_⟩
      · cases hp : poll i with
        | error e => simp only [jitoWaitLoop, hp]; exact step.1 hc
        | ok s =>
            cases s with
            | Confirmed => exact absurd hp hi.1
            | Failed => exact absurd hp hi.2
            | Pending => simp only [jitoWaitLoop, hp]; exact step.1 hc
      · cases hp : poll i with
        | error e => simp only [jitoWaitLoop, hp]; exact step.2 hf
        | ok s =>
            cases s with
            | Confirmed => exact absurd hp hi.1
            | Failed => exact absurd hp hi.2
            | Pending => simp only [jitoWaitLoop, hp]; exact step.2 hf

/-- Timeout case of the nozomi wait loop: unknown statuses, "pending" and
transient errors never terminate it. -/
theorem nozomiWaitLoop_false (poll : ℕ → Except Unit String) :
    ∀ fuel i,
      (∀ j, i ≤ j → j < i + fuel →
        poll j ≠ .ok "confirmed" ∧ poll j ≠ .ok "failed") →
      nozomiWaitLoop poll fuel i = false := by
  intro fuel
  induction fuel with
  | zero => intro i _; rfl
  | succ n ih =>
    intro i h
    have hi := h i (le_refl i) (by omega)
    cases hp : poll i with
    | error e =>
        simp only [nozomiWaitLoop, hp]
        exact ih (i + 1) (fun j h1 h2 => h j (by omega) (by omega))
    | ok s =>
        have hsc : s ≠ "confirmed" := fun hs => hi.1 (hs ▸ hp)
        have hsf : s ≠ "failed" := fun hs => hi.2 (hs ▸ hp)
        simp only [nozomiWaitLoop, hp, if_neg hsc, if_neg hsf]
        exact ih (i + 1) (fun j h1 h2 => h j (by omega) (by omega))

/-- Terminal case of the nozomi wait loop. -/
theorem nozomiWaitLoop_terminal (poll : ℕ → Except Unit String) :
    ∀ fuel i k, i ≤ k → k < i + fuel →
      (∀ j, i ≤ j → j < k →
        poll j ≠ .ok "confirmed" ∧ poll j ≠ .ok "failed") →
      (poll k = .ok "confirmed" → nozomiWaitLoop poll fuel i = true) ∧
      (poll k = .ok "failed" → nozomiWaitLoop poll fuel i = false) := by
  intro fuel
  induction fuel with
  | zero => intro i k h1 h2 _; omega
  | succ n ih =>
    intro i k hik hk h
    by_cases hk0 : k = i
    · subst hk0
      refine ⟨fun hc => ?_, fun hf => ?_⟩
      · simp [nozomiWaitLoop, hc]
      · simp [nozomiWaitLoop, hf]
    · have hi := h i (le_refl i) (by omega)
      have step := ih (i + 1) k (by omega) (by omega)
        (fun j hj1 hj2 => h j (by omega) hj2)
      have hcont : nozomiWaitLoop poll (n + 1) i = nozomiWaitLoop poll n (i + 1) := by
        cases hp : poll i with
        | error e => simp only [nozomiWaitLoop, hp]
        | ok s =>
            have hsc : s ≠ "confirmed" := fun hs => hi.1 (hs ▸ hp)
            have hsf : s ≠ "failed" := fun hs => hi.2 (hs ▸ hp)
            simp only [nozomiWaitLoop, hp, if_neg hsc, if_neg hsf]
      exact ⟨fun hc => hcont ▸ step.1 hc, fun hf => hcont ▸ step.2 hf⟩

/-- **C8.** For both confirmation backends, if no poll within the timeout
window (about `timeout/100ms` polls at the fixed 100ms interval) observes a
terminal status, the await-confirmation operation returns `false` rather
than raising; the first poll that observes Confirmed makes it return
`true`, the first that observes Failed makes it return `false`, and
transient status-check errors before that point do not terminate the wait
loop. -/
theorem await_confirmation_spec :
    ∀ (pollJ : ℕ → Except Unit BundleStatus) (pollN : ℕ → Except Unit String)
      (t : ℕ),
      ((∀ i, i < numPolls t →
          pollJ i ≠ .ok .Confirmed ∧ pollJ i ≠ .ok .Failed) →
        wait_for_bundle_confirmation pollJ t = false) ∧
      (∀ k, k < numPolls t →
        (∀ j, j < k → pollJ j ≠ .ok .Confirmed ∧ pollJ j ≠ .ok .Failed) →
        (pollJ k = .ok .Confirmed → wait_for_bundle_confirmation pollJ t = true) ∧
        (pollJ k = .ok .Failed → wait_for_bundle_confirmation pollJ t = false)) ∧
      ((∀ i, i < numPolls t →
          pollN i ≠ .ok "confirmed" ∧ pollN i ≠ .ok "failed") →
        wait_for_confirmation pollN t = false) ∧
      (∀ k, k < numPolls t →
        (∀ j, j < k → pollN j ≠ .ok "confirmed" ∧ pollN j ≠ .ok "failed") →
        (pollN k = .ok "confirmed" → wait_for_confirmation pollN t = true) ∧
        (pollN k = .ok "failed" → wait_for_confirmation pollN t = false)) := by
  intro pollJ pollN t
  refine ⟨fun h => ?_, fun k hk hpre => ?_, fun h => ?_, fun k hk hpre => ?_⟩
  · exact jitoWaitLoop_false pollJ (numPolls t) 0 (fun j _ hj => h j (by omega))
  · exact jitoWaitLoop_terminal pollJ (numPolls t) 0 k (by omega) (by omega)
      (fun j _ hj => hpre j hj)
  · exact nozomiWaitLoop_false pollN (numPolls t) 0 (fun j _ hj => h j (by omega))
  · exact nozomiWaitLoop_terminal pollN (numPolls t) 0 k (by omega) (by omega)
      (fun j _ hj => hpre j hj)

/-- Closed instance of `await_confirmation_spec` with a 1000ms timeout
(10 polls): an always-Pending backend times out to `false`; a backend that
errors once, stays pending, then confirms at the third poll yields `true`;
one that fails at the second poll yields `false`; and the nozomi analogues,
including an unknown status string looping to timeout. -/
theorem await_confirmation_spec_witness :
    wait_for_bundle_confirmation (fun _ => .ok .Pending) 1000 = false ∧
    wait_for_bundle_confirmation
      (fun i => if i = 2 then .ok .Confirmed
                else if i = 0 then .error () else .ok .Pending) 1000 = true ∧
    wait_for_bundle_confirmation
      (fun i => if i = 1 then .ok .Failed else .error ()) 1000 = false ∧
    wait_for_confirmation (fun _ => .ok "unknown") 1000 = false ∧
    wait_for_confirmation
      (fun i => if i = 1 then .ok "confirmed" else .ok "pending") 1000 = true ∧
    wait_for_confirmation
      (fun i => if i = 0 then .ok "failed" else .error ()) 1000 = false := by
  refine ⟨?_, ?_, ?_, ?_, ?_, ?_⟩
  · exact (await_confirmation_spec (fun _ => .ok .Pending) (fun _ => .ok "unknown")
      1000).1 (by decide)
  · exact ((await_confirmation_spec
      (fun i => if i = 2 then .ok .Confirmed
                else if i = 0 then .error () else .ok .Pending)
      (fun _ => .ok "unknown") 1000).2.1 2 (by decide) (by decide)).1 (by decide)
  · exact ((await_confirmation_spec
      (fun i => if i = 1 then .ok .Failed else .error ())
      (fun _ => .ok "unknown") 1000).2.1 1 (by decide) (by decide)).2 (by decide)
  · exact (await_confirmation_spec (fun _ => .ok .Pending) (fun _ => .ok "unknown")
      1000).2.2.1 (by decide)
  · exact ((await_confirmation_spec (fun _ => .ok .Pending)
      (fun i => if i = 1 then .ok "confirmed" else .ok "pending")
      1000).2.2.2 1 (by decide) (by decide)).1 (by decide)
  · exact ((await_confirmation_spec (fun _ => .ok .Pending)
      (fun i => if i = 0 then .ok "failed" else .error ())
      1000).2.2.2 0 (by decide) (by decide)).2 (by decide)

/-! ## Claim C4: price-history append and FIFO trim -/

/-- The points a batch of updates contributes to token `a`'s history, in
arrival order. -/
def pointsFor (updates : List PriceUpdate) (a : String) : List PricePoint :=
  (updates.filter (fun u => decide (u.token_address = a))).map toPricePoint

/-- Pushing a batch appends each update's point to its token's history, in
arrival order. -/
theorem foldl_pushUpdate (updates : List PriceUpdate) :
    ∀ (m : String → List PricePoint) (a : String),
      (updates.foldl pushUpdate m) a = m a ++ pointsFor updates a := by
  induction updates with
  | nil => intro m a; simp [pointsFor]
  | cons u us ih =>
    intro m a
    simp only [List.foldl_cons]
    rw [ih]
    by_cases h : u.token_address = a
    · subst h
      simp [pushUpdate, pointsFor, List.filter_cons]
    · simp [pushUpdate, pointsFor, List.filter_cons, h, Ne.symm h]

/-- The trim keeps at most 1000 points. -/
theorem trimHistory_length (h : List PricePoint) :
    (trimHistory h).length ≤ 1000 := by
  unfold trimHistory
  split
  · simp only [List.length_drop]
    omega
  · omega

/-- The `i`-th sequential test point of the spec's 1001-point scenario:
token "tok", fixed price and volume, timestamp `i`. -/
def seqUpdate (i : ℕ) : PriceUpdate :=
  { token_address := "tok"
    price_usd := 1
    price_sol := 0
    liquidity_usd := 0
    volume_1h := 2000
    timestamp := i }

/-- `n` sequential points for token "tok" with timestamps `0, 1, ..., n-1`. -/
def seqUpdates (n : ℕ) : List PriceUpdate :=
  (List.range n).map seqUpdate

/-- Every sequential update is for "tok", so the whole batch lands in that
token's history. -/
theorem pointsFor_seqUpdates (n : ℕ) :
    pointsFor (seqUpdates n) "tok" =
      (List.range n).map (fun i => toPricePoint (seqUpdate i)) := by
  unfold pointsFor seqUpdates
  rw [List.filter_map]
  have : List.filter ((fun u => decide (u.token_address = "tok")) ∘ seqUpdate)
      (List.range n) = List.range n := by
    apply List.filter_eq_self.mpr
    intro i _
    simp [seqUpdate]
  rw [this, List.map_map]
  rfl

/-- **C4.** The history-update operation appends each update to its token's
history and then trims each history to its last 1000 points (FIFO eviction
of the oldest entries), so every history stays at length ≤ 1000; appending
1001 sequential points to an empty history leaves exactly the last 1000 in
arrival order, with the first point absent. -/
theorem update_price_history_spec :
    (∀ (m : String → List PricePoint) (updates : List PriceUpdate) (a : String),
      update_price_history m updates a = trimHistory (m a ++ pointsFor updates a)) ∧
    (∀ (m : String → List PricePoint) (updates : List PriceUpdate) (a : String),
      (update_price_history m updates a).length ≤ 1000) ∧
    update_price_history (fun _ => []) (seqUpdates 1001) "tok" =
      ((List.range 1001).map (fun i => toPricePoint (seqUpdate i))).drop 1 ∧
    (update_price_history (fun _ => []) (seqUpdates 1001) "tok").length = 1000 ∧
    toPricePoint (seqUpdate 0) ∉
      update_price_history (fun _ => []) (seqUpdates 1001) "tok" := by
  have hchar : ∀ (m : String → List PricePoint) (updates : List PriceUpdate)
      (a : String),
      update_price_history m updates a = trimHistory (m a ++ pointsFor updates a) := by
    intro m updates a
    unfold update_price_history
    rw [foldl_pushUpdate]
  have hseq : update_price_history (fun _ => []) (seqUpdates 1001) "tok" =
      ((List.range 1001).map (fun i => toPricePoint (seqUpdate i))).drop 1 := by
    rw [hchar, pointsFor_seqUpdates]
    unfold trimHistory
    rw [List.nil_append]
    rw [if_pos (by simp)]
    simp
  refine ⟨hchar, fun m updates a => ?_, hseq, ?_, ?_⟩
  · rw [hchar]; exact trimHistory_length _
  · rw [hseq]; simp
  · rw [hseq]
    rw [List.range_succ_eq_map, List.map_cons, List.drop_one, List.tail_cons,
      List.map_map]
    intro hmem
    obtain ⟨i, _, hi⟩ := List.mem_map.mp hmem
    have := congrArg PricePoint.timestamp hi
    simp [toPricePoint, seqUpdate, Function.comp] at this

/-- Closed instance of `update_price_history_spec`: one update appended to
a singleton history. -/
theorem update_price_history_spec_witness :
    update_price_history (fun _ => [toPricePoint (seqUpdate 0)]) [seqUpdate 1] "tok" =
      trimHistory ([toPricePoint (seqUpdate 0)] ++ pointsFor [seqUpdate 1] "tok") ∧
    (update_price_history (fun _ => [toPricePoint (seqUpdate 0)]) [seqUpdate 1] "tok").length
      ≤ 1000 := by
  exact ⟨update_price_history_spec.1 (fun _ => [toPricePoint (seqUpdate 0)])
      [seqUpdate 1] "tok",
    update_price_history_spec.2.1 (fun _ => [toPricePoint (seqUpdate 0)])
      [seqUpdate 1] "tok"⟩

/-! ## Claim C7: the minimum-liquidity gate -/

/-- **C7.** A listing whose `initial_liquidity` is below the configured
minimum converted to lamports (`min_liquidity * 1e9 as u64`) never yields a
snipe (`should_snipe_token` is false) and never yields an MEV signal: its
per-listing analysis returns `None` and a batch containing only that
listing produces no signals. -/
theorem low_liquidity_no_snipe_no_signal :
    ∀ (cfg : Config) (now : ℕ) (hist : String → List PricePoint)
      (listing : TokenListing) (rF rA : TokenListing → ℚ) (rB : PriceUpdate → ℚ),
      listing.initial_liquidity < minLiquidityLamports cfg →
      should_snipe_token cfg listing = false ∧
      analyze_new_listing cfg now listing (rF listing) (rA listing) = none ∧
      (analyze_opportunities cfg now hist [listing] [] rF rA rB).2 = [] := by
  intro cfg now hist l rF rA rB h
  have hnone : ∀ x y, analyze_new_listing cfg now l x y = none := by
    intro x y
    unfold analyze_new_listing
    rw [if_pos h]
  refine ⟨?_, hnone _ _, ?_⟩
  · unfold should_snipe_token
    rw [if_pos h]
  · unfold analyze_opportunities
    simp [hnone, sortSignals, List.insertionSort]

/-- Closed instance of `low_liquidity_no_snipe_no_signal`: minimum
liquidity 10 SOL (10^10 lamports), a listing with only 5 lamports. -/
theorem low_liquidity_no_snipe_no_signal_witness :
    should_snipe_token
        ⟨[], 10, 5, 1, 1000000, true, [.FrontRun, .Arbitrage], "jito"⟩
        ⟨"mint", "M", 0, 5, "pool"⟩ = false ∧
    analyze_new_listing
        ⟨[], 10, 5, 1, 1000000, true, [.FrontRun, .Arbitrage], "jito"⟩ 0
        ⟨"mint", "M", 0, 5, "pool"⟩ 0.5 0.5 = none ∧
    (analyze_opportunities
        ⟨[], 10, 5, 1, 1000000, true, [.FrontRun, .Arbitrage], "jito"⟩ 0
        (fun _ => []) [⟨"mint", "M", 0, 5, "pool"⟩] []
        (fun _ => 0.5) (fun _ => 0.5) (fun _ => 0.5)).2 = [] := by
  exact low_liquidity_no_snipe_no_signal
    ⟨[], 10, 5, 1, 1000000, true, [.FrontRun, .Arbitrage], "jito"⟩ 0
    (fun _ => []) ⟨"mint", "M", 0, 5, "pool"⟩
    (fun _ => 0.5) (fun _ => 0.5) (fun _ => 0.5)
    (by norm_num [minLiquidityLamports, f64ToU64])

/-! ## Claim C3: every produced signal has priority Low -/

/-- Front-running profit bound: `0.5 * liquidity_factor * random_factor`
with `liquidity_factor ∈ [0,1]` and `random_factor ∈ [0.5, 1)`. -/
theorem frontrun_profit_lt (l : TokenListing) (r : ℚ)
    (h0 : 0 ≤ r) (h1 : r < 1) : calculate_frontrun_profit l r < 0.5 := by
  unfold calculate_frontrun_profit
  have hx0 : (0 : ℚ) ≤ (l.initial_liquidity : ℚ) / 1000000000 := by positivity
  have hlf0 : (0 : ℚ) ≤ min ((l.initial_liquidity : ℚ) / 1000000000) 100 / 100 := by
    have := le_min hx0 (by norm_num : (0:ℚ) ≤ 100)
    linarith
  have hlf1 : min ((l.initial_liquidity : ℚ) / 1000000000) 100 / 100 ≤ 1 := by
    have := min_le_right ((l.initial_liquidity : ℚ) / 1000000000) 100
    linarith
  have hrf0 : (0 : ℚ) ≤ r * 0.5 + 0.5 := by linarith
  have hrf1 : r * 0.5 + 0.5 < 1 := by linarith
  nlinarith [mul_le_of_le_one_left hrf0 hlf1,
    mul_nonneg hlf0 hrf0]

/-- Arbitrage profit bound: `0.3 * liquidity_factor * random_factor` with
`liquidity_factor ∈ [0,1]` and `random_factor ∈ [0.7, 1)`. -/
theorem arbitrage_profit_lt (l : TokenListing) (r : ℚ)
    (h0 : 0 ≤ r) (h1 : r < 1) : calculate_arbitrage_profit l r < 0.3 := by
  unfold calculate_arbitrage_profit
  have hx0 : (0 : ℚ) ≤ (l.initial_liquidity : ℚ) / 1000000000 := by positivity
  have hlf0 : (0 : ℚ) ≤ min ((l.initial_liquidity : ℚ) / 1000000000) 50 / 50 := by
    have := le_min hx0 (by norm_num : (0:ℚ) ≤ 50)
    linarith
  have hlf1 : min ((l.initial_liquidity : ℚ) / 1000000000) 50 / 50 ≤ 1 := by
    have := min_le_right ((l.initial_liquidity : ℚ) / 1000000000) 50
    linarith
  have hrf0 : (0 : ℚ) ≤ r * 0.3 + 0.7 := by linarith
  have hrf1 : r * 0.3 + 0.7 < 1 := by linarith
  nlinarith [mul_le_of_le_one_left hrf0 hlf1,
    mul_nonneg hlf0 hrf0]

/-- Sandwich profit bound past the volume gate: the price impact
`|p - p*0.95| / p` is 0.05 for positive prices (0 or negative otherwise),
so the profit is at most `0.4 * 1 * 0.05 = 0.02`. -/
theorem sandwich_profit_le (u : PriceUpdate) (hv : 1000 ≤ u.volume_1h) :
    calculate_sandwich_profit u ≤ 0.02 := by
  unfold calculate_sandwich_profit
  have himp : u.price_usd - u.price_usd * 0.95 = 0.05 * u.price_usd := by ring
  rw [himp]
  have hvf0 : (0 : ℚ) ≤ min (u.volume_1h / 10000) 1 := by
    have h1 : (0 : ℚ) ≤ u.volume_1h / 10000 := by
      have : (0:ℚ) ≤ u.volume_1h := by linarith
      positivity
    exact le_min h1 (by norm_num)
  have hvf1 : min (u.volume_1h / 10000) 1 ≤ 1 := min_le_right _ _
  rcases lt_trichotomy u.price_usd 0 with hp | hp | hp
  · have hq : |0.05 * u.price_usd| / u.price_usd ≤ 0 :=
      div_nonpos_iff.mpr (Or.inl ⟨abs_nonneg _, hp.le⟩)
    have h04 : (0:ℚ) ≤ 0.4 * min (u.volume_1h / 10000) 1 :=
      mul_nonneg (by norm_num) hvf0
    nlinarith [mul_nonpos_iff.mpr (Or.inr ⟨hq, h04⟩)]
  · rw [hp]
    norm_num
  · rw [abs_of_pos (by positivity : (0:ℚ) < 0.05 * u.price_usd),
      mul_div_assoc, div_self (ne_of_gt hp), mul_one]
    nlinarith [hvf0, hvf1]

/-- Back-running profit bound: `0.25 * volume_factor * random_factor` with
`volume_factor ≤ 1` and `random_factor ∈ [0.6, 1)`. -/
theorem backrun_profit_lt (u : PriceUpdate) (r : ℚ)
    (h0 : 0 ≤ r) (h1 : r < 1) : calculate_backrun_profit u r < 0.25 := by
  unfold calculate_backrun_profit
  have hvf1 : min (u.volume_1h / 5000) 1 ≤ 1 := min_le_right _ _
  have hrf0 : (0 : ℚ) ≤ r * 0.4 + 0.6 := by linarith
  have hrf1 : r * 0.4 + 0.6 < 1 := by linarith
  rcases le_or_lt 0 (min (u.volume_1h / 5000) 1) with hvf0 | hvf0
  · nlinarith [mul_le_of_le_one_left hrf0 hvf1,
      mul_nonneg hvf0 hrf0]
  · nlinarith [mul_nonpos_iff.mpr
      (Or.inr ⟨hvf0.le, hrf0⟩)]

/-- A combined score at most 0.4 yields priority Low. -/
theorem priority_low_of (o : MEVOpportunity)
    (h : o.expected_profit * o.confidence_score * (1 - o.risk_score) ≤ 0.4) :
    calculate_priority o = .Low := by
  simp only [calculate_priority]
  rw [if_neg (by push_neg; linarith), if_neg (by push_neg; linarith),
    if_neg (by push_neg; linarith)]

/-- Any signal emitted by the front-running detector has priority Low. -/
theorem detect_frontrun_low (cfg : Config) (now : ℕ) (l : TokenListing)
    (r : ℚ) (h0 : 0 ≤ r) (h1 : r < 1) (s : MEVSignal)
    (h : detect_frontrun_opportunity cfg now l r = some s) :
    s.priority = .Low := by
  have hep := frontrun_profit_lt l r h0 h1
  simp only [detect_frontrun_opportunity] at h
  split at h
  · obtain rfl := Option.some.inj h
    apply priority_low_of
    show calculate_frontrun_profit l r * 0.8 * (1 - 0.3) ≤ 0.4
    nlinarith [hep]
  · exact absurd h (by simp)

/-- Any signal emitted by the arbitrage detector has priority Low. -/
theorem detect_arbitrage_low (cfg : Config) (now : ℕ) (l : TokenListing)
    (r : ℚ) (h0 : 0 ≤ r) (h1 : r < 1) (s : MEVSignal)
    (h : detect_arbitrage_opportunity cfg now l r = some s) :
    s.priority = .Low := by
  have hep := arbitrage_profit_lt l r h0 h1
  simp only [detect_arbitrage_opportunity] at h
  split at h
  · obtain rfl := Option.some.inj h
    apply priority_low_of
    show calculate_arbitrage_profit l r * 0.9 * (1 - 0.2) ≤ 0.4
    nlinarith [hep]
  · exact absurd h (by simp)

/-- Past the volume gate, the sandwich detector never fires: its profit
never clears the 0.2 floor. -/
theorem detect_sandwich_none (cfg : Config) (now : ℕ) (u : PriceUpdate)
    (hv : 1000 ≤ u.volume_1h) :
    detect_sandwich_opportunity cfg now u = none := by
  have hep := sandwich_profit_le u hv
  simp only [detect_sandwich_opportunity]
  rw [if_neg (by push_neg; linarith)]

/-- Any signal emitted by the back-running detector has priority Low. -/
theorem detect_backrun_low (cfg : Config) (now : ℕ) (u : PriceUpdate)
    (r : ℚ) (h0 : 0 ≤ r) (h1 : r < 1) (s : MEVSignal)
    (h : detect_backrun_opportunity cfg now u r = some s) :
    s.priority = .Low := by
  have hep := backrun_profit_lt u r h0 h1
  simp only [detect_backrun_opportunity] at h
  split at h
  · obtain rfl := Option.some.inj h
    apply priority_low_of
    show calculate_backrun_profit u r * 0.85 * (1 - 0.4) ≤ 0.4
    nlinarith [hep]
  · exact absurd h (by simp)

/-- Any signal the per-listing analysis yields has priority Low. -/
theorem analyze_new_listing_low (cfg : Config) (now : ℕ) (l : TokenListing)
    (rF rA : ℚ) (hF0 : 0 ≤ rF) (hF1 : rF < 1) (hA0 : 0 ≤ rA) (hA1 : rA < 1)
    (s : MEVSignal) (h : analyze_new_listing cfg now l rF rA = some s) :
    s.priority = .Low := by
  unfold analyze_new_listing at h
  split at h
  · exact absurd h (by simp)
  · cases hE : (if MEVStrategy.FrontRun ∈ cfg.mev_strategies then
        detect_frontrun_opportunity cfg now l rF else none) with
    | some s' =>
        rw [hE] at h
        simp only at h
        obtain rfl := Option.some.inj h
        split at hE
        · exact detect_frontrun_low cfg now l rF hF0 hF1 s' hE
        · exact absurd hE (by simp)
    | none =>
        rw [hE] at h
        simp only at h
        split at h
        · exact detect_arbitrage_low cfg now l rA hA0 hA1 s h
        · exact absurd h (by simp)

/-- Any signal the per-price-update analysis yields has priority Low. -/
theorem analyze_price_update_low (cfg : Config) (now : ℕ) (u : PriceUpdate)
    (rB : ℚ) (hB0 : 0 ≤ rB) (hB1 : rB < 1)
    (s : MEVSignal) (h : analyze_price_update cfg now u rB = some s) :
    s.priority = .Low := by
  unfold analyze_price_update at h
  by_cases hv : u.volume_1h < 1000
  · rw [if_pos hv] at h
    exact absurd h (by simp)
  · rw [if_neg hv] at h
    push_neg at hv
    cases hE : (if MEVStrategy.Sandwich ∈ cfg.mev_strategies then
        detect_sandwich_opportunity cfg now u else none) with
    | some s' =>
        rw [hE] at h
        simp only at h
        obtain rfl := Option.some.inj h
        split at hE
        · rw [detect_sandwich_none cfg now u hv] at hE
          exact absurd hE (by simp)
        · exact absurd hE (by simp)
    | none =>
        rw [hE] at h
        simp only at h
        split at h
        · exact detect_backrun_low cfg now u rB hB0 hB1 s h
        · exact absurd h (by simp)

/-- Every member of the analysis output has priority Low (the shared core
of the detector claims, usable by the dispatcher development). -/
theorem mem_analyze_low (cfg : Config) (now : ℕ)
    (hist : String → List PricePoint)
    (listings : List TokenListing) (updates : List PriceUpdate)
    (rF rA : TokenListing → ℚ) (rB : PriceUpdate → ℚ)
    (hF : ∀ l, 0 ≤ rF l ∧ rF l < 1) (hA : ∀ l, 0 ≤ rA l ∧ rA l < 1)
    (hB : ∀ u, 0 ≤ rB u ∧ rB u < 1) :
    ∀ s ∈ (analyze_opportunities cfg now hist listings updates rF rA rB).2,
      s.priority = MEVPriority.Low := by
  intro s hs
  have hs' : s ∈ listings.filterMap
        (fun l => analyze_new_listing cfg now l (rF l) (rA l)) ++
      updates.filterMap (fun u => analyze_price_update cfg now u (rB u)) := by
    have := hs
    unfold analyze_opportunities at this
    simp only at this
    exact (List.mem_insertionSort signalLe).mp this
  rcases List.mem_append.mp hs' with hmem | hmem
  · obtain ⟨l, _, hl⟩ := List.mem_filterMap.mp hmem
    exact analyze_new_listing_low cfg now l (rF l) (rA l)
      (hF l).1 (hF l).2 (hA l).1 (hA l).2 s hl
  · obtain ⟨u, _, hu⟩ := List.mem_filterMap.mp hmem
    exact analyze_price_update_low cfg now u (rB u) (hB u).1 (hB u).2 s hu

/-- **C3.** With the random draws in `[0,1)`, each detector's expected
profit is bounded (FrontRun < 0.5, Arbitrage < 0.3, BackRun < 0.25, and
Sandwich profit ≤ 0.02 so the sandwich detector never clears its 0.2 floor),
and with the fixed per-strategy confidence and risk constants every
`MEVSignal` returned by `analyze_opportunities` has priority Low; hence the
dispatcher's Priority ≥ High and Priority ≥ Medium execution gates are never
satisfied. -/
theorem analyze_signals_always_low :
    (∀ (l : TokenListing) (r : ℚ), 0 ≤ r → r < 1 →
      calculate_frontrun_profit l r < 0.5) ∧
    (∀ (l : TokenListing) (r : ℚ), 0 ≤ r → r < 1 →
      calculate_arbitrage_profit l r < 0.3) ∧
    (∀ (u : PriceUpdate), 1000 ≤ u.volume_1h →
      calculate_sandwich_profit u ≤ 0.02) ∧
    (∀ (cfg : Config) (now : ℕ) (u : PriceUpdate), 1000 ≤ u.volume_1h →
      detect_sandwich_opportunity cfg now u = none) ∧
    (∀ (u : PriceUpdate) (r : ℚ), 0 ≤ r → r < 1 →
      calculate_backrun_profit u r < 0.25) ∧
    (∀ (cfg : Config) (now : ℕ) (hist : String → List PricePoint)
      (listings : List TokenListing) (updates : List PriceUpdate)
      (rF rA : TokenListing → ℚ) (rB : PriceUpdate → ℚ),
      (∀ l, 0 ≤ rF l ∧ rF l < 1) → (∀ l, 0 ≤ rA l ∧ rA l < 1) →
      (∀ u, 0 ≤ rB u ∧ rB u < 1) →
      ∀ s ∈ (analyze_opportunities cfg now hist listings updates rF rA rB).2,
        s.priority = MEVPriority.Low ∧
        ¬MEVPriority.High.toNat ≤ s.priority.toNat ∧
        ¬MEVPriority.Medium.toNat ≤ s.priority.toNat) := by
  refine ⟨frontrun_profit_lt, arbitrage_profit_lt, sandwich_profit_le,
    detect_sandwich_none, backrun_profit_lt, ?_⟩
  intro cfg now hist listings updates rF rA rB hF hA hB s hs
  have hlow := mem_analyze_low cfg now hist listings updates rF rA rB hF hA hB s hs
  rw [hlow]
  refine ⟨rfl, by decide, by decide⟩

/-- Closed instance of `analyze_signals_always_low`: a batch of one rich
listing and one high-volume price update, with all random draws 0.5, in
which every produced signal has priority Low. -/
theorem analyze_signals_always_low_witness :
    ((analyze_opportunities
        ⟨[], 10, 5, 1, 1000000, true, [.FrontRun, .Arbitrage, .Sandwich, .BackRun], "jito"⟩
        0 (fun _ => []) [⟨"mint", "M", 0, 100000000000, "pool"⟩]
        [⟨"mint", 1, 1, 50000, 5000, 7⟩]
        (fun _ => 0.5) (fun _ => 0.5) (fun _ => 0.5)).2).all
      (fun s => decide (s.priority = MEVPriority.Low)) = true := by
  apply List.all_eq_true.mpr
  intro s hs
  have := analyze_signals_always_low.2.2.2.2.2
    ⟨[], 10, 5, 1, 1000000, true, [.FrontRun, .Arbitrage, .Sandwich, .BackRun], "jito"⟩
    0 (fun _ => []) [⟨"mint", "M", 0, 100000000000, "pool"⟩]
    [⟨"mint", 1, 1, 50000, 5000, 7⟩]
    (fun _ => 0.5) (fun _ => 0.5) (fun _ => 0.5)
    (fun _ => ⟨by norm_num, by norm_num⟩) (fun _ => ⟨by norm_num, by norm_num⟩)
    (fun _ => ⟨by norm_num, by norm_num⟩) s hs
  exact decide_eq_true this.1

/-! ## Claim C6: output ordering -/

/-- Unpacking the sort relation: if `x` may precede `y` then `x`'s priority
is at least `y`'s, and on equal priorities `x`'s profit is at least `y`'s. -/
theorem signalLe_elim (x y : MEVSignal) (h : signalLe x y) :
    y.priority.toNat ≤ x.priority.toNat ∧
      (x.priority = y.priority →
        y.opportunity.expected_profit ≤ x.opportunity.expected_profit) := by
  rcases h with h | ⟨he, hp⟩
  · refine ⟨le_of_lt h, fun heq => ?_⟩
    rw [heq] at h
    omega
  · exact ⟨le_of_eq (congrArg MEVPriority.toNat he.symm), fun _ => hp⟩

/-- **C6.** The signal list returned by `analyze_opportunities` is sorted
descending by (priority, expected_profit): it is `Sorted` under `signalLe`
(the comparator's "comes-no-later" relation), so whenever one signal
appears before another, the earlier one has a priority at least as high —
a strictly higher priority always comes first regardless of profits — and
among equal priorities the earlier one has at least the profit of the
later. -/
theorem analyze_signals_sorted :
    ∀ (cfg : Config) (now : ℕ) (hist : String → List PricePoint)
      (listings : List TokenListing) (updates : List PriceUpdate)
      (rF rA : TokenListing → ℚ) (rB : PriceUpdate → ℚ),
      ((analyze_opportunities cfg now hist listings updates rF rA rB).2).Sorted
        signalLe ∧
      (∀ (a b :
          Fin (analyze_opportunities cfg now hist listings updates rF rA rB).2.length),
        a < b →
        ((analyze_opportunities cfg now hist listings updates rF rA rB).2.get b).priority.toNat ≤
          ((analyze_opportunities cfg now hist listings updates rF rA rB).2.get a).priority.toNat ∧
        (((analyze_opportunities cfg now hist listings updates rF rA rB).2.get a).priority =
            ((analyze_opportunities cfg now hist listings updates rF rA rB).2.get b).priority →
          ((analyze_opportunities cfg now hist listings updates rF rA rB).2.get b).opportunity.expected_profit ≤
            ((analyze_opportunities cfg now hist listings updates rF rA rB).2.get a).opportunity.expected_profit)) := by
  intro cfg now hist listings updates rF rA rB
  have hsorted :
      ((analyze_opportunities cfg now hist listings updates rF rA rB).2).Sorted
        signalLe := by
    unfold analyze_opportunities
    simp only
    exact List.sorted_insertionSort signalLe _
  exact ⟨hsorted, fun a b hab =>
    signalLe_elim _ _ (hsorted.rel_get_of_lt hab)⟩

/-- Closed instance of `analyze_signals_sorted` at a concrete batch of one
listing and one price update. -/
theorem analyze_signals_sorted_witness :
    ((analyze_opportunities
        ⟨[], 10, 5, 1, 1000000, true, [.FrontRun, .BackRun], "jito"⟩
        0 (fun _ => []) [⟨"mint", "M", 0, 100000000000, "pool"⟩]
        [⟨"mint", 1, 1, 50000, 5000, 7⟩]
        (fun _ => 0.5) (fun _ => 0.5) (fun _ => 0.5)).2).Sorted signalLe := by
  exact (analyze_signals_sorted
    ⟨[], 10, 5, 1, 1000000, true, [.FrontRun, .BackRun], "jito"⟩
    0 (fun _ => []) [⟨"mint", "M", 0, 100000000000, "pool"⟩]
    [⟨"mint", 1, 1, 50000, 5000, 7⟩]
    (fun _ => 0.5) (fun _ => 0.5) (fun _ => 0.5)).1

/-! ## Claim C2: per-event errors and the batch -/

/-- With a healthy clock the fallible front-running detector agrees with the
pure one. -/
theorem detect_frontrun_opportunityE_ok (cfg : Config) (now : ℕ)
    (l : TokenListing) (r : ℚ) :
    detect_frontrun_opportunityE cfg (.ok now) l r =
      .ok (detect_frontrun_opportunity cfg now l r) := by
  by_cases hp : calculate_frontrun_profit l r > 0.1
  · unfold detect_frontrun_opportunityE
    rw [if_pos hp]
    rfl
  · simp only [detect_frontrun_opportunityE, detect_frontrun_opportunity]
    rw [if_neg hp, if_neg hp]
    rfl

/-- With a healthy clock the fallible arbitrage detector agrees with the
pure one. -/
theorem detect_arbitrage_opportunityE_ok (cfg : Config) (now : ℕ)
    (l : TokenListing) (r : ℚ) :
    detect_arbitrage_opportunityE cfg (.ok now) l r =
      .ok (detect_arbitrage_opportunity cfg now l r) := by
  by_cases hp : calculate_arbitrage_profit l r > 0.05
  · unfold detect_arbitrage_opportunityE
    rw [if_pos hp]
    rfl
  · simp only [detect_arbitrage_opportunityE, detect_arbitrage_opportunity]
    rw [if_neg hp, if_neg hp]
    rfl

/-- With a healthy clock the fallible sandwich detector agrees with the
pure one. -/
theorem detect_sandwich_opportunityE_ok (cfg : Config) (now : ℕ)
    (u : PriceUpdate) :
    detect_sandwich_opportunityE cfg (.ok now) u =
      .ok (detect_sandwich_opportunity cfg now u) := by
  by_cases hp : calculate_sandwich_profit u > 0.2
  · unfold detect_sandwich_opportunityE
    rw [if_pos hp]
    rfl
  · simp only [detect_sandwich_opportunityE, detect_sandwich_opportunity]
    rw [if_neg hp, if_neg hp]
    rfl

/-- With a healthy clock the fallible back-running detector agrees with the
pure one. -/
theorem detect_backrun_opportunityE_ok (cfg : Config) (now : ℕ)
    (u : PriceUpdate) (r : ℚ) :
    detect_backrun_opportunityE cfg (.ok now) u r =
      .ok (detect_backrun_opportunity cfg now u r) := by
  by_cases hp : calculate_backrun_profit u r > 0.15
  · unfold detect_backrun_opportunityE
    rw [if_pos hp]
    rfl
  · simp only [detect_backrun_opportunityE, detect_backrun_opportunity]
    rw [if_neg hp, if_neg hp]
    rfl

/-- With a healthy clock the fallible per-listing analysis agrees with the
pure one. -/
theorem analyze_new_listingE_ok (cfg : Config) (now : ℕ) (l : TokenListing)
    (rF rA : ℚ) :
    analyze_new_listingE cfg (.ok now) l rF rA =
      .ok (analyze_new_listing cfg now l rF rA) := by
  unfold analyze_new_listingE analyze_new_listing
  by_cases hliq : l.initial_liquidity < minLiquidityLamports cfg
  · rw [if_pos hliq, if_pos hliq]
    rfl
  · rw [if_neg hliq, if_neg hliq]
    by_cases hf : MEVStrategy.FrontRun ∈ cfg.mev_strategies
    · rw [if_pos hf, if_pos hf, detect_frontrun_opportunityE_ok]
      cases hd : detect_frontrun_opportunity cfg now l rF with
      | some s => rfl
      | none =>
          show (if MEVStrategy.Arbitrage ∈ cfg.mev_strategies then
              detect_arbitrage_opportunityE cfg (.ok now) l rA
            else pure none) = _
          by_cases ha : MEVStrategy.Arbitrage ∈ cfg.mev_strategies
          · rw [if_pos ha, if_pos ha, detect_arbitrage_opportunityE_ok]
          · rw [if_neg ha, if_neg ha]
            rfl
    · rw [if_neg hf, if_neg hf]
      show (if MEVStrategy.Arbitrage ∈ cfg.mev_strategies then
          detect_arbitrage_opportunityE cfg (.ok now) l rA
        else pure none) = _
      by_cases ha : MEVStrategy.Arbitrage ∈ cfg.mev_strategies
      · rw [if_pos ha, if_pos ha, detect_arbitrage_opportunityE_ok]
      · rw [if_neg ha, if_neg ha]
        rfl

/-- With a healthy clock the fallible per-price-update analysis agrees with
the pure one. -/
theorem analyze_price_updateE_ok (cfg : Config) (now : ℕ) (u : PriceUpdate)
    (rB : ℚ) :
    analyze_price_updateE cfg (.ok now) u rB =
      .ok (analyze_price_update cfg now u rB) := by
  unfold analyze_price_updateE analyze_price_update
  by_cases hv : u.volume_1h < 1000
  · rw [if_pos hv, if_pos hv]
    rfl
  · rw [if_neg hv, if_neg hv]
    by_cases hsw : MEVStrategy.Sandwich ∈ cfg.mev_strategies
    · rw [if_pos hsw, if_pos hsw, detect_sandwich_opportunityE_ok]
      cases hd : detect_sandwich_opportunity cfg now u with
      | some s => rfl
      | none =>
          show (if MEVStrategy.BackRun ∈ cfg.mev_strategies then
              detect_backrun_opportunityE cfg (.ok now) u rB
            else pure none) = _
          by_cases hb : MEVStrategy.BackRun ∈ cfg.mev_strategies
          · rw [if_pos hb, if_pos hb, detect_backrun_opportunityE_ok]
          · rw [if_neg hb, if_neg hb]
            rfl
    · rw [if_neg hsw, if_neg hsw]
      show (if MEVStrategy.BackRun ∈ cfg.mev_strategies then
          detect_backrun_opportunityE cfg (.ok now) u rB
        else pure none) = _
      by_cases hb : MEVStrategy.BackRun ∈ cfg.mev_strategies
      · rw [if_pos hb, if_pos hb, detect_backrun_opportunityE_ok]
      · rw [if_neg hb, if_neg hb]
        rfl

/-- When no per-event analysis errors, the collecting loop returns exactly
the filtered signals, in order. -/
theorem collectSignalsE_ok {α : Type} (f : α → Except Unit (Option MEVSignal))
    (g : α → Option MEVSignal) (h : ∀ a, f a = .ok (g a)) :
    ∀ xs, collectSignalsE f xs = .ok (xs.filterMap g) := by
  intro xs
  induction xs with
  | nil => rfl
  | cons x xs ih =>
      simp only [collectSignalsE, h x, ih, List.filterMap_cons]
      cases g x <;> rfl

/-- The first erroring event aborts the collecting loop (the `?` in the
detector's per-event loops): events before it analyzed fine, its own error
is the loop's result, and later events are never reached. -/
theorem collectSignalsE_error {α : Type} (f : α → Except Unit (Option MEVSignal)) :
    ∀ (pre : List α) (e : α) (post : List α),
      (∀ p ∈ pre, ∃ v, f p = .ok v) → f e = .error () →
      collectSignalsE f (pre ++ e :: post) = .error () := by
  intro pre
  induction pre with
  | nil =>
      intro e post _ he
      simp only [List.nil_append, collectSignalsE, he]
      rfl
  | cons p ps ih =>
      intro e post hpre he
      obtain ⟨v, hv⟩ := hpre p (List.mem_cons_self p ps)
      have hrest := ih e post (fun q hq => hpre q (List.mem_cons_of_mem p hq)) he
      simp only [List.cons_append, collectSignalsE, hv, List.append_eq]
      rw [hrest]
      rfl

/-- **C2 (amended).** An error raised while analyzing one event aborts the
whole batch: `analyze_opportunities` propagates the first per-event error
(here: a failed clock read for an event whose profit gate fires) to its
caller, discarding the signals of every other event; only when no per-event
analysis errors does the batch return the pure analysis of all events. -/
theorem analyze_error_propagation :
    (∀ (cfg : Config) (clkL : TokenListing → Except Unit ℕ)
      (clkU : PriceUpdate → Except Unit ℕ) (hist : String → List PricePoint)
      (pre : List TokenListing) (e : TokenListing) (post : List TokenListing)
      (updates : List PriceUpdate)
      (rF rA : TokenListing → ℚ) (rB : PriceUpdate → ℚ),
      (∀ p ∈ pre, ∃ v, analyze_new_listingE cfg (clkL p) p (rF p) (rA p) = .ok v) →
      analyze_new_listingE cfg (clkL e) e (rF e) (rA e) = .error () →
      analyze_opportunitiesE cfg clkL clkU hist (pre ++ e :: post) updates rF rA rB =
        .error ()) ∧
    (∀ (cfg : Config) (now : ℕ) (hist : String → List PricePoint)
      (listings : List TokenListing) (updates : List PriceUpdate)
      (rF rA : TokenListing → ℚ) (rB : PriceUpdate → ℚ),
      analyze_opportunitiesE cfg (fun _ => .ok now) (fun _ => .ok now) hist
          listings updates rF rA rB =
        .ok (analyze_opportunities cfg now hist listings updates rF rA rB)) := by
  constructor
  · intro cfg clkL clkU hist pre e post updates rF rA rB hpre he
    unfold analyze_opportunitiesE
    rw [collectSignalsE_error _ pre e post hpre he]
    rfl
  · intro cfg now hist listings updates rF rA rB
    unfold analyze_opportunitiesE
    rw [collectSignalsE_ok _ _ (fun l => analyze_new_listingE_ok cfg now l (rF l) (rA l)),
      collectSignalsE_ok _ _ (fun u => analyze_price_updateE_ok cfg now u (rB u))]
    rfl

/-- The configuration of the C2 error-propagation scenario: front-running
enabled, minimum liquidity 10 SOL. -/
def cfgC2 : Config :=
  ⟨[], 10, 5, 1, 1000000, true, [.FrontRun], "jito"⟩

/-- First listing of the C2 scenario (rich; its clock read will fail). -/
def listingA : TokenListing :=
  ⟨"a", "A", 0, 100000000000, "pa"⟩

/-- Second listing of the C2 scenario (rich; analyzes fine). -/
def listingB : TokenListing :=
  ⟨"b", "B", 0, 100000000000, "pb"⟩

/-- The clock oracle of the C2 scenario: the read fails exactly for
listing "a". -/
def clkC2 : TokenListing → Except Unit ℕ :=
  fun l => if l.token_address = "a" then .error () else .ok 0

/-- The profit gate of the rich listing "a" fires, so its failed clock read
aborts its per-listing analysis with an error. Shared scaffolding of the C2
counterexample and witness. -/
theorem listing_a_analysisE_error :
    analyze_new_listingE cfgC2 (clkC2 listingA) listingA 0.5 0.5 = .error () := by
  have hclk : clkC2 listingA = .error () := by
    unfold clkC2 listingA
    rw [if_pos rfl]
  have hgate : ¬(listingA.initial_liquidity < minLiquidityLamports cfgC2) := by
    norm_num [listingA, cfgC2, minLiquidityLamports, f64ToU64]
  have hprof : calculate_frontrun_profit listingA (0.5 : ℚ) > 0.1 := by
    norm_num [calculate_frontrun_profit, listingA]
  rw [hclk]
  unfold analyze_new_listingE
  rw [if_neg hgate, if_pos (by simp [cfgC2])]
  unfold detect_frontrun_opportunityE
  rw [if_pos hprof]
  rfl

/-- The per-listing analysis of the rich listing "b" produces a signal. -/
theorem listing_b_analysis_some :
    (analyze_new_listing cfgC2 0 listingB 0.5 0.5).isSome = true := by
  have hgate : ¬(listingB.initial_liquidity < minLiquidityLamports cfgC2) := by
    norm_num [listingB, cfgC2, minLiquidityLamports, f64ToU64]
  have hprof : calculate_frontrun_profit listingB (0.5 : ℚ) > 0.1 := by
    norm_num [calculate_frontrun_profit, listingB]
  unfold analyze_new_listing
  rw [if_neg hgate, if_pos (by simp [cfgC2])]
  unfold detect_frontrun_opportunity
  rw [if_pos hprof]
  rfl

/-- **C2 counterexample.** A batch of two rich listings where only the
first one's clock read fails: the whole batch analysis returns the error —
it does not return the signal the second listing produces, which the
second conjunct exhibits by analyzing that listing alone. -/
theorem analyze_error_aborts_batch :
    analyze_opportunitiesE cfgC2 clkC2 (fun _ => .ok 0) (fun _ => [])
      [listingA, listingB] []
      (fun _ => 0.5) (fun _ => 0.5) (fun _ => 0.5) = .error () ∧
    ((analyze_opportunities cfgC2 0 (fun _ => []) [listingB] []
      (fun _ => 0.5) (fun _ => 0.5) (fun _ => 0.5)).2).length = 1 := by
  constructor
  · have hcol : collectSignalsE
        (fun l => analyze_new_listingE cfgC2 (clkC2 l) l ((fun _ => (0.5:ℚ)) l)
          ((fun _ => (0.5:ℚ)) l)) [listingA, listingB] = .error () := by
      have h := collectSignalsE_error
        (fun l => analyze_new_listingE cfgC2 (clkC2 l) l ((fun _ => (0.5:ℚ)) l)
          ((fun _ => (0.5:ℚ)) l))
        [] listingA [listingB]
        (fun p hp => absurd hp (List.not_mem_nil p))
        listing_a_analysisE_error
      simpa using h
    unfold analyze_opportunitiesE
    rw [hcol]
    rfl
  · obtain ⟨sig, hsig⟩ := Option.isSome_iff_exists.mp listing_b_analysis_some
    unfold analyze_opportunities
    simp only [List.filterMap_cons, List.filterMap_nil, hsig]
    rw [sortSignals, List.length_insertionSort]
    rfl

/-- Closed instance of `analyze_error_propagation`: its abort part replayed
at the counterexample's batch, and its healthy-clock part at the second
listing alone. -/
theorem analyze_error_propagation_witness :
    analyze_opportunitiesE cfgC2 clkC2 (fun _ => .ok 0) (fun _ => [])
      ([] ++ listingA :: [listingB]) []
      (fun _ => 0.5) (fun _ => 0.5) (fun _ => 0.5) = .error () ∧
    analyze_opportunitiesE cfgC2 (fun _ => .ok 0) (fun _ => .ok 0) (fun _ => [])
      [listingB] [] (fun _ => 0.5) (fun _ => 0.5) (fun _ => 0.5) =
      .ok (analyze_opportunities cfgC2 0 (fun _ => []) [listingB] []
        (fun _ => 0.5) (fun _ => 0.5) (fun _ => 0.5)) := by
  constructor
  · exact analyze_error_propagation.1 cfgC2 clkC2 (fun _ => .ok 0) (fun _ => [])
      [] listingA [listingB] [] (fun _ => 0.5) (fun _ => 0.5) (fun _ => 0.5)
      (fun p hp => absurd hp (List.not_mem_nil p))
      listing_a_analysisE_error
  · exact analyze_error_propagation.2 cfgC2 0 (fun _ => []) [listingB] []
      (fun _ => 0.5) (fun _ => 0.5) (fun _ => 0.5)

/-! ## Claim C1: admission-slot discipline of the dispatch paths -/

/-- Balance after an appended trace. -/
theorem balAfter_append (xs ys : List Action) :
    ∀ bal, balAfter bal (xs ++ ys) = balAfter (balAfter bal xs) ys := by
  induction xs with
  | nil => intro bal; rfl
  | cons a xs ih => intro bal; cases a <;> simp [balAfter, ih]

/-- The slot-holding check splits over an appended trace. -/
theorem guardedFrom_append (xs ys : List Action) :
    ∀ bal, guardedFrom bal (xs ++ ys) =
      (guardedFrom bal xs && guardedFrom (balAfter bal xs) ys) := by
  induction xs with
  | nil => intro bal; rfl
  | cons a xs ih =>
      intro bal
      cases a <;> simp [guardedFrom, balAfter, ih, Bool.and_assoc]

/-- The snipe submission block holds whatever single slot it is run under:
it only submits (never touches the semaphore) and leaves the balance
unchanged. -/
theorem execute_snipe_actions_facts (cfg : Config) (hJ hN : Bool)
    (l : TokenListing) :
    guardedFrom 1 (execute_snipe_actions cfg hJ hN l) = true ∧
    balAfter 1 (execute_snipe_actions cfg hJ hN l) = 1 ∧
    acquireCount (execute_snipe_actions cfg hJ hN l) = 0 ∧
    releaseCount (execute_snipe_actions cfg hJ hN l) = 0 := by
  unfold execute_snipe_actions
  split_ifs <;>
    simp [guardedFrom, balAfter, acquireCount, releaseCount, List.countP_cons,
      List.countP_nil]

/-- The MEV submission block likewise only submits. -/
theorem execute_mev_actions_facts (cfg : Config) (hJ hN : Bool)
    (s : MEVSignal) :
    guardedFrom 1 (execute_mev_strategy_actions cfg hJ hN s) = true ∧
    balAfter 1 (execute_mev_strategy_actions cfg hJ hN s) = 1 ∧
    acquireCount (execute_mev_strategy_actions cfg hJ hN s) = 0 ∧
    releaseCount (execute_mev_strategy_actions cfg hJ hN s) = 0 := by
  unfold execute_mev_strategy_actions
  split_ifs <;>
    simp [guardedFrom, balAfter, acquireCount, releaseCount, List.countP_cons,
      List.countP_nil]

/-- One iteration of the price-update MEV loop — acquire, execute, release
— is slot-correct in isolation: it starts and ends with no held permit,
every submission in it runs under exactly the one acquired permit, and it
acquires and releases exactly once. -/
theorem priceBlock_facts (cfg : Config) (hJ hN : Bool) (s : MEVSignal) :
    guardedFrom 0 (Action.acquire ::
      (execute_mev_strategy_actions cfg hJ hN s ++ [Action.release])) = true ∧
    balAfter 0 (Action.acquire ::
      (execute_mev_strategy_actions cfg hJ hN s ++ [Action.release])) = 0 ∧
    acquireCount (Action.acquire ::
      (execute_mev_strategy_actions cfg hJ hN s ++ [Action.release])) = 1 ∧
    releaseCount (Action.acquire ::
      (execute_mev_strategy_actions cfg hJ hN s ++ [Action.release])) = 1 := by
  obtain ⟨hexg, hexb, hexa, hexr⟩ := execute_mev_actions_facts cfg hJ hN s
  refine ⟨?_, ?_, ?_, ?_⟩
  · show guardedFrom 1
      (execute_mev_strategy_actions cfg hJ hN s ++ [Action.release]) = true
    rw [guardedFrom_append, hexg, hexb]
    rfl
  · show balAfter 1
      (execute_mev_strategy_actions cfg hJ hN s ++ [Action.release]) = 0
    rw [balAfter_append, hexb]
    rfl
  · unfold acquireCount at hexa ⊢
    rw [List.countP_cons, List.countP_append, hexa]
    rfl
  · unfold releaseCount at hexr ⊢
    rw [List.countP_cons, List.countP_append, hexr]
    rfl

/-- The price-update MEV loop is slot-correct for arbitrary signals: every
submission happens under the one permit its iteration acquired, the loop
ends holding nothing, and permits are released exactly as often as
acquired (on success and failure alike). -/
theorem dispatchPriceMEV_facts (cfg : Config) (hJ hN : Bool) :
    ∀ signals : List MEVSignal,
      guardedFrom 0 (dispatchPriceMEV cfg hJ hN signals) = true ∧
      balAfter 0 (dispatchPriceMEV cfg hJ hN signals) = 0 ∧
      acquireCount (dispatchPriceMEV cfg hJ hN signals) =
        releaseCount (dispatchPriceMEV cfg hJ hN signals) := by
  intro signals
  induction signals with
  | nil => exact ⟨rfl, rfl, rfl⟩
  | cons s ss ih =>
      unfold dispatchPriceMEV at ih ⊢
      rw [List.flatMap_cons]
      by_cases hg : MEVPriority.Medium.toNat ≤ s.priority.toNat
      · rw [if_pos hg]
        obtain ⟨hbg, hbb, hba, hbr⟩ := priceBlock_facts cfg hJ hN s
        refine ⟨?_, ?_, ?_⟩
        · rw [guardedFrom_append, hbg, hbb, ih.1]
          rfl
        · rw [balAfter_append, hbb, ih.2.1]
        · unfold acquireCount at hba
          unfold releaseCount at hbr
          unfold acquireCount releaseCount at ih ⊢
          rw [List.countP_append, List.countP_append, hba, hbr, ih.2.2]
      · rw [if_neg hg]
        simpa using ih

/-- When every signal has priority Low, the listing-triggered MEV loop
(gated on priority ≥ High) executes nothing. -/
theorem dispatchListingMEV_eq_nil (cfg : Config) (hJ hN : Bool)
    (signals : List MEVSignal) (h : ∀ s ∈ signals, s.priority = .Low) :
    dispatchListingMEV cfg hJ hN signals = [] := by
  induction signals with
  | nil => rfl
  | cons s ss ih =>
      unfold dispatchListingMEV at ih ⊢
      rw [List.flatMap_cons, if_neg, ih (fun x hx => h x (List.mem_cons_of_mem s hx)),
        List.nil_append]
      rw [h s (List.mem_cons_self s ss)]
      decide

/-- When every signal has priority Low, the price-triggered MEV loop
(gated on priority ≥ Medium) executes nothing. -/
theorem dispatchPriceMEV_eq_nil (cfg : Config) (hJ hN : Bool)
    (signals : List MEVSignal) (h : ∀ s ∈ signals, s.priority = .Low) :
    dispatchPriceMEV cfg hJ hN signals = [] := by
  induction signals with
  | nil => rfl
  | cons s ss ih =>
      unfold dispatchPriceMEV at ih ⊢
      rw [List.flatMap_cons, if_neg, ih (fun x hx => h x (List.mem_cons_of_mem s hx)),
        List.nil_append]
      rw [h s (List.mem_cons_self s ss)]
      decide

/-- **C1 (amended).** Admission-slot discipline as the code implements it:
the price-update-triggered MEV loop is fully slot-disciplined for arbitrary
signals (each execution runs under exactly one acquired permit, released
exactly once, on success and failure); on the listing path only the snipe
is slot-gated — a dispatch call acquires one permit when the snipe decision
passes and none otherwise (not "exactly one per call") — and with the
detector as implemented (random draws in `[0,1)`) the listing- and
price-triggered MEV gates never fire, so the un-gated listing-MEV
submission path (see the counterexample) is never exercised and
`process_price_update` performs no action at all. -/
theorem admission_slot_discipline :
    (∀ (cfg : Config) (hJ hN : Bool) (signals : List MEVSignal),
      guardedFrom 0 (dispatchPriceMEV cfg hJ hN signals) = true ∧
      acquireCount (dispatchPriceMEV cfg hJ hN signals) =
        releaseCount (dispatchPriceMEV cfg hJ hN signals)) ∧
    (∀ (cfg : Config) (hJ hN : Bool) (now : ℕ) (hist : String → List PricePoint)
      (l : TokenListing) (rF rA : ℚ),
      0 ≤ rF → rF < 1 → 0 ≤ rA → rA < 1 →
      guardedFrom 0 (process_new_listing cfg hJ hN now hist l rF rA) = true ∧
      acquireCount (process_new_listing cfg hJ hN now hist l rF rA) =
        (if should_snipe_token cfg l then 1 else 0) ∧
      releaseCount (process_new_listing cfg hJ hN now hist l rF rA) =
        (if should_snipe_token cfg l then 1 else 0)) ∧
    (∀ (cfg : Config) (hJ hN : Bool) (now : ℕ) (hist : String → List PricePoint)
      (u : PriceUpdate) (rB : ℚ), 0 ≤ rB → rB < 1 →
      process_price_update cfg hJ hN now hist u rB = []) := by
  refine ⟨fun cfg hJ hN signals =>
    ⟨(dispatchPriceMEV_facts cfg hJ hN signals).1,
      (dispatchPriceMEV_facts cfg hJ hN signals).2.2⟩, ?_, ?_⟩
  · intro cfg hJ hN now hist l rF rA hF0 hF1 hA0 hA1
    have hmev : (if cfg.enable_mev then
        dispatchListingMEV cfg hJ hN
          ((analyze_opportunities cfg now hist [l] [] (fun _ => rF) (fun _ => rA)
            (fun _ => 0)).2)
      else []) = [] := by
      cases he : cfg.enable_mev
      · simp [he]
      · simp only [he, if_true]
        apply dispatchListingMEV_eq_nil
        intro s hs
        exact mem_analyze_low cfg now hist [l] [] _ _ _
          (fun _ => ⟨hF0, hF1⟩) (fun _ => ⟨hA0, hA1⟩)
          (fun _ => ⟨le_refl 0, by norm_num⟩) s hs
    unfold process_new_listing
    rw [hmev, List.append_nil]
    obtain ⟨hexg, hexb, hexa, hexr⟩ := execute_snipe_actions_facts cfg hJ hN l
    cases hsn : should_snipe_token cfg l
    · refine ⟨?_, ?_, ?_⟩ <;>
        simp [hsn, guardedFrom, acquireCount, releaseCount, List.countP_nil]
    · simp only [hsn, if_true]
      refine ⟨?_, ?_, ?_⟩
      · show guardedFrom 1 (execute_snipe_actions cfg hJ hN l ++ [Action.release]) = true
        rw [guardedFrom_append, hexg, hexb]
        rfl
      · unfold acquireCount at hexa ⊢
        rw [List.countP_cons, List.countP_append, hexa]
        rfl
      · unfold releaseCount at hexr ⊢
        rw [List.countP_cons, List.countP_append, hexr]
        rfl
  · intro cfg hJ hN now hist u rB hB0 hB1
    unfold process_price_update
    cases he : cfg.enable_mev
    · simp [he]
    · simp only [he, if_true]
      apply dispatchPriceMEV_eq_nil
      intro s hs
      exact mem_analyze_low cfg now hist [] [u] _ _ _
        (fun _ => ⟨le_refl 0, by norm_num⟩) (fun _ => ⟨le_refl 0, by norm_num⟩)
        (fun _ => ⟨hB0, hB1⟩) s hs

/-- A fabricated High-priority signal, fed to the listing-triggered MEV
dispatch loop to exhibit its missing semaphore acquisition. -/
def sHigh : MEVSignal :=
  ⟨⟨"x", .FrontRun, "t", "p", 1, 1, 0, 0, [], 0, 0⟩, .High, ⟨[], 0, 0, 0, []⟩⟩

/-- Configuration for the C1 counterexample: jito backend, MEV enabled. -/
def cfgC1 : Config :=
  ⟨[], 10, 5, 1, 1000000, true, [], "jito"⟩

/-- Configuration whose dispatch call consumes no slot at all: MEV
disabled, and the listing below will fail the snipe gate. -/
def cfgC1noMev : Config :=
  ⟨[], 10, 5, 1, 1000000, false, [], "jito"⟩

/-- A listing below the 10-SOL minimum liquidity. -/
def listingLow : TokenListing :=
  ⟨"mint", "M", 0, 5, "pool"⟩

/-- **C1 counterexample.** The listing-triggered MEV dispatch loop converts
a High-priority signal into an on-chain submission while holding no
admission slot — it performs one submission, acquires nothing, and the
slot-holding check fails; and a dispatch call whose gates do not pass
consumes zero slots, not "exactly one". -/
theorem listing_mev_submits_without_slot :
    submitCount (dispatchListingMEV cfgC1 true false [sHigh]) = 1 ∧
    acquireCount (dispatchListingMEV cfgC1 true false [sHigh]) = 0 ∧
    guardedFrom 0 (dispatchListingMEV cfgC1 true false [sHigh]) = false ∧
    process_new_listing cfgC1noMev true false 0 (fun _ => []) listingLow 0.5 0.5 = [] ∧
    acquireCount
      (process_new_listing cfgC1noMev true false 0 (fun _ => []) listingLow 0.5 0.5) = 0 := by
  have hdisp : dispatchListingMEV cfgC1 true false [sHigh] =
      [Action.submitBatch (create_mev_transactions sHigh)] := by
    unfold dispatchListingMEV
    rw [List.flatMap_cons, if_pos (by decide), List.flatMap_nil, List.append_nil]
    unfold execute_mev_strategy_actions
    rw [if_pos (by rfl), if_pos rfl]
  have hproc : process_new_listing cfgC1noMev true false 0 (fun _ => []) listingLow
      0.5 0.5 = [] := by
    have hsn : should_snipe_token cfgC1noMev listingLow = false := by
      unfold should_snipe_token
      rw [if_pos (by norm_num [listingLow, cfgC1noMev, minLiquidityLamports, f64ToU64])]
    unfold process_new_listing
    rw [hsn]
    simp [cfgC1noMev]
  refine ⟨?_, ?_, ?_, hproc, ?_⟩
  · rw [hdisp]
    rfl
  · rw [hdisp]
    rfl
  · rw [hdisp]
    rfl
  · rw [hproc]
    rfl

/-- Closed instance of `admission_slot_discipline`: the price-path loop is
slot-disciplined even at the fabricated High signal, the snipe path of a
low-liquidity listing acquires nothing, and a price update dispatches no
action. -/
theorem admission_slot_discipline_witness :
    (guardedFrom 0 (dispatchPriceMEV cfgC1 true false [sHigh]) = true ∧
      acquireCount (dispatchPriceMEV cfgC1 true false [sHigh]) =
        releaseCount (dispatchPriceMEV cfgC1 true false [sHigh])) ∧
    (guardedFrom 0 (process_new_listing cfgC1 true false 0 (fun _ => [])
        listingLow 0.5 0.5) = true ∧
      acquireCount (process_new_listing cfgC1 true false 0 (fun _ => [])
        listingLow 0.5 0.5) =
        (if should_snipe_token cfgC1 listingLow then 1 else 0) ∧
      releaseCount (process_new_listing cfgC1 true false 0 (fun _ => [])
        listingLow 0.5 0.5) =
        (if should_snipe_token cfgC1 listingLow then 1 else 0)) ∧
    process_price_update cfgC1 true false 0 (fun _ => [])
      ⟨"mint", 1, 1, 50000, 5000, 7⟩ 0.5 = [] := by
  refine ⟨admission_slot_discipline.1 cfgC1 true false [sHigh], ?_, ?_⟩
  · exact admission_slot_discipline.2.1 cfgC1 true false 0 (fun _ => [])
      listingLow 0.5 0.5 (by norm_num) (by norm_num) (by norm_num) (by norm_num)
  · exact admission_slot_discipline.2.2 cfgC1 true false 0 (fun _ => [])
      ⟨"mint", 1, 1, 50000, 5000, 7⟩ 0.5 (by norm_num) (by norm_num)

end PumpSwap
